import Mathlib

/-!
# The Redis adapter of `utils/database`

A shallow embedding of `utils/database/redis_database.go`: the `redisDB`
adapter, its three constructors, `connect`, and the six `Database`
operations.  The Redis server, the redigo connection and the redigo reply
helpers are collaborators of the adapter; they are modelled first, the
adapter after them, and the theorems last.
-/

set_option autoImplicit false

namespace Registry

/-! ## Go values -/

/-- Go `error` values that reach the adapter.  `conn` stands for any error
value produced by the connection (dial, command, server error reply); the
other constructors are the errors the redigo helpers and `strconv` create. -/
inductive GoError where
  | conn (msg : String)
  | errNil
  | unexpectedType (helper : String)
  | badNumber (text : String)
  | outOfRange (text : String)
  | arrayShort
  | cannotConvert
  | cannotAssign (dest : Nat) (cause : GoError)
  | oddStringMap
  | mapKeyNotBulk
  deriving DecidableEq, Repr

/-- Run-time panics of the Go program. -/
inductive Panic where
  | nilDereference
  | indexOutOfRange
  deriving DecidableEq, Repr

/-- How a call ends: it returns, it panics, or the model ran out of loop
budget (`timeout`, the only way a non-terminating scan shows up). -/
inductive Outcome (α : Type) where
  | returned (a : α)
  | panicked (p : Panic)
  | timeout
  deriving DecidableEq, Repr

/-- A Go `map[string]string`, as an association list that holds each key
at most once (most recently written key first). -/
abbrev GoMap := List (String × String)

/-- The Go statement `m[k] = v`. -/
def mapPut (m : GoMap) (k v : String) : GoMap :=
  (k, v) :: m.filter (fun p => p.1 != k)

/-- The Go expression `m[k]` with its presence flag. -/
def mapGet (m : GoMap) (k : String) : Option String :=
  List.lookup k m

/-! ## redigo replies and reply helpers (external library) -/

/-- A redigo reply value (`interface{}`): `nil`, `int64`, `[]byte`,
`string`, `redis.Error`, `[]interface{}`; `nilArray` is a nil
`[]interface{}` slice held in the interface. -/
inductive Reply where
  | nil
  | int (n : Int)
  | bulk (s : String)
  | status (s : String)
  | error (e : GoError)
  | array (xs : List Reply)
  | nilArray

/-- Width of Go's `int` (a 64-bit platform). -/
def intSize : Nat := 64

/-- Model of `strconv.ParseInt(s, 10, bits)`: an optional sign, then one
or more decimal digits; a value outside the signed range is clamped and
reported. -/
def parseInt (s : String) (bits : Nat) : Int × Option GoError :=
  let cs := s.toList
  let signed : Bool × List Char :=
    match cs with
    | '+' :: r => (false, r)
    | '-' :: r => (true, r)
    | r => (false, r)
  match signed.2 with
  | [] => (0, some (.badNumber s))
  | ds =>
    if ds.all Char.isDigit then
      let n : Nat := ds.foldl (fun a c => 10 * a + (c.toNat - 48)) 0
      let v : Int := if signed.1 then -(n : Int) else (n : Int)
      if v < -(2 ^ (bits - 1) : Int) then (-(2 ^ (bits - 1) : Int), some (.outOfRange s))
      else if v > (2 ^ (bits - 1) : Int) - 1 then ((2 ^ (bits - 1) : Int) - 1, some (.outOfRange s))
      else (v, none)
    else (0, some (.badNumber s))

/-- Model of `redis.String(reply, err)`. -/
def redisString : Reply × Option GoError → String × Option GoError
  | (_, some err) => ("", some err)
  | (.bulk s, none) => (s, none)
  | (.status s, none) => (s, none)
  | (.nil, none) => ("", some .errNil)
  | (.error e, none) => ("", some e)
  | (_, none) => ("", some (.unexpectedType "String"))

/-- One element of `redis.Strings`: nil stays the empty string, a bulk
string is converted, anything else is an error. -/
def stringsElem : Reply → Except GoError String
  | .nil => .ok ""
  | .bulk s => .ok s
  | _ => .error (.unexpectedType "Strings element")

/-- Convert every element, stopping at the first error. -/
def convertAll (f : Reply → Except GoError String) : List Reply → Except GoError (List String)
  | [] => .ok []
  | r :: rs =>
    match f r with
    | .error e => .error e
    | .ok s =>
      match convertAll f rs with
      | .error e => .error e
      | .ok ss => .ok (s :: ss)

/-- Model of `redis.Strings(reply, err)`; `none` is the nil slice. -/
def redisStrings : Reply × Option GoError → Option (List String) × Option GoError
  | (_, some err) => (none, some err)
  | (.array xs, none) =>
    match convertAll stringsElem xs with
    | .ok ss => (some ss, none)
    | .error e => (none, some e)
  | (.nilArray, none) => (some [], none)
  | (.nil, none) => (none, some .errNil)
  | (.error e, none) => (none, some e)
  | (_, none) => (none, some (.unexpectedType "Strings"))

/-- Model of `redis.Values(reply, err)`; `none` is the nil slice. -/
def redisValues : Reply × Option GoError → Option (List Reply) × Option GoError
  | (_, some err) => (none, some err)
  | (.array xs, none) => (some xs, none)
  | (.nilArray, none) => (none, none)
  | (.nil, none) => (none, some .errNil)
  | (.error e, none) => (none, some e)
  | (_, none) => (none, some (.unexpectedType "Values"))

/-- The key/value loop of `redis.StringMap` over an even-length list. -/
def stringMapLoop : List Reply → GoMap → Option GoMap × Option GoError
  | .bulk k :: .bulk v :: rest, m => stringMapLoop rest (mapPut m k v)
  | [], m => (some m, none)
  | _, _ => (none, some .mapKeyNotBulk)

/-- Model of `redis.StringMap(reply, err)`; `none` is the nil map. -/
def redisStringMap (r : Reply × Option GoError) : Option GoMap × Option GoError :=
  match redisValues r with
  | (_, some err) => (none, some err)
  | (vs, none) =>
    let values := vs.getD []
    if values.length % 2 != 0 then (none, some .oddStringMap)
    else stringMapLoop values []

/-- Model of `redis.Int(reply, err)`. -/
def redisInt : Reply × Option GoError → Int × Option GoError
  | (_, some err) => (0, some err)
  | (.int n, none) =>
    if -(2 ^ (intSize - 1) : Int) ≤ n ∧ n < (2 ^ (intSize - 1) : Int) then (n, none)
    else (0, some (.outOfRange "int"))
  | (.bulk s, none) => parseInt s intSize
  | (.nil, none) => (0, some .errNil)
  | (.error e, none) => (0, some e)
  | (_, none) => (0, some (.unexpectedType "Int"))

/-- What `redis.Scan` does to an `*int64` destination holding `d`. -/
def assignInt64 (d : Int) : Reply → Int × Option GoError
  | .bulk s => parseInt s 64
  | .int n => (n, none)
  | .nil => (d, none)
  | .error e => (d, some e)
  | _ => (d, some .cannotConvert)

/-- One element assigned into a `string` slot by `redis.Scan`: a bulk
string is copied and any other element is an error; for a nil element redigo
panics while it builds that error (`reflect.TypeOf(nil).String()` in
`cannotConvert`). -/
def scanElem : Reply → Outcome (Except GoError String)
  | .bulk s => .returned (.ok s)
  | .nil => .panicked .nilDereference
  | _ => .returned (.error .cannotConvert)

/-- The elements of an array assigned one after the other, stopping at the
first error or panic. -/
def scanAll : List Reply → Outcome (Except GoError (List String))
  | [] => .returned (.ok [])
  | r :: rs =>
    match scanElem r with
    | .returned (.ok s) =>
      match scanAll rs with
      | .returned (.ok ss) => .returned (.ok (s :: ss))
      | .returned (.error e) => .returned (.error e)
      | .panicked p => .panicked p
      | .timeout => .timeout
    | .returned (.error e) => .returned (.error e)
    | .panicked p => .panicked p
    | .timeout => .timeout

/-- What `redis.Scan` does to a `*[]string` destination holding `d`: an
array replaces it element by element, nil leaves it as it is.  On an error
the caller returns at once and never reads the destination again. -/
def assignStrings (d : List String) : Reply → Outcome (List String × Option GoError)
  | .array xs =>
    match scanAll xs with
    | .returned (.ok ss) => .returned (ss, none)
    | .returned (.error e) => .returned (d, some e)
    | .panicked p => .panicked p
    | .timeout => .timeout
  | .nilArray => .returned ([], none)
  | .nil => .returned (d, none)
  | .error e => .returned (d, some e)
  | _ => .returned (d, some .cannotConvert)

/-- Model of `redis.Scan(items, &cursor, &keys)`: the new values of
`cursor` and `keys`, and the error; or the panic of an element. -/
def redisScan (items : List Reply) (cursor : Int) (keys : List String) :
    Outcome (Int × List String × Option GoError) :=
  match items with
  | src0 :: src1 :: _ =>
    match assignInt64 cursor src0 with
    | (c, some e) => .returned (c, keys, some (.cannotAssign 0 e))
    | (c, none) =>
      match assignStrings keys src1 with
      | .returned (ks, some e) => .returned (c, ks, some (.cannotAssign 1 e))
      | .returned (ks, none) => .returned (c, ks, none)
      | .panicked p => .panicked p
      | .timeout => .timeout
  | _ => .returned (cursor, keys, some .arrayShort)

/-! ## Connections and the world around the adapter -/

/-- A connection handle (`redis.Conn`). -/
abbrev ConnId := Nat

/-- A connection pool handle (`*redis.Pool`). -/
abbrev PoolId := Nat

/-- An argument of `conn.Do`. -/
inductive Arg where
  | str (s : String)
  | int (n : Int)
  deriving DecidableEq, Repr

/-- A command given to `conn.Do`: its name and its arguments. -/
structure Command where
  name : String
  args : List Arg
  deriving DecidableEq, Repr

/-- What the adapter does to the outside world, with what came back. -/
inductive Event where
  | dial (address : String) (c : Option ConnId) (err : Option GoError)
  | poolGet (p : PoolId) (c : ConnId)
  | command (c : ConnId) (cmd : Command) (reply : Reply) (err : Option GoError)
  | close (c : ConnId)

/-- The server side: how a dial and a command are answered. -/
structure Backend (σ : Type) where
  dial : σ → String → String → σ × Option GoError
  exec : σ → ConnId → Command → σ × (Reply × Option GoError)

/-- The world: the backend state, the next fresh connection handle, and the
log of events, newest first. -/
structure World (σ : Type) where
  state : σ
  nextConn : Nat
  log : List Event

/-- A world with an empty log. -/
def World.start {σ : Type} (s : σ) (n : Nat) : World σ := ⟨s, n, []⟩

/-- The call `conn.Do(cmd...)` on connection `c`. -/
def doCmd {σ : Type} (B : Backend σ) (c : ConnId) (cmd : Command) (w : World σ) :
    World σ × (Reply × Option GoError) :=
  let r := B.exec w.state c cmd
  (⟨r.1, w.nextConn, .command c cmd r.2.1 r.2.2 :: w.log⟩, r.2)

/-- The call `conn.Close()` on connection `c`. -/
def closeConn {σ : Type} (c : ConnId) (w : World σ) : World σ :=
  ⟨w.state, w.nextConn, .close c :: w.log⟩

/-! ## The adapter -/

/-- Modelled from the spec: `auth.Namespace` of the `auth` package, which is
not among the sources; the spec calls it an identifier that is a string, and
the test assigns a string literal to it. -/
structure Namespace where
  name : String
  deriving DecidableEq, Repr

/-- Modelled from the spec: `auth.Namespace.String()`, the identifier as a
string. -/
def Namespace.String (n : Namespace) : String := n.name

/-- The struct `redisDB` (the logger is left out: no operation reads it);
`ns` is the field `namespace`. -/
structure RedisDB where
  conn : Option ConnId
  pool : Option PoolId
  address : String
  password : String
  ns : Namespace
  deriving DecidableEq, Repr

/-- Source `NewRedisDB`. -/
def NewRedisDB (ns : Namespace) (address password : String) : RedisDB :=
  ⟨none, none, address, password, ns⟩

/-- Source `NewRedisDBWithConn`. -/
def NewRedisDBWithConn (conn : ConnId) (ns : Namespace) (address password : String) : RedisDB :=
  ⟨some conn, none, address, password, ns⟩

/-- Source `NewRedisDBWithPool`. -/
def NewRedisDBWithPool (ns : Namespace) (pool : PoolId) : RedisDB :=
  ⟨none, some pool, "", "", ns⟩

/-- Source `redisDB.connect`.  In the branch without a pool the statement
`conn, err := redis.Dial(...)` declares a second `conn` that lives only in
that block, so the `conn` of the final `return conn, nil` is still nil. -/
def connect {σ : Type} (B : Backend σ) (rdb : RedisDB) (w : World σ) :
    World σ × (Option ConnId × Option GoError) :=
  match rdb.pool with
  | none =>
    match B.dial w.state "tcp" rdb.address with
    | (s1, some err) =>
      (⟨s1, w.nextConn, .dial rdb.address none (some err) :: w.log⟩, (none, some err))
    | (s1, none) =>
      let inner : ConnId := w.nextConn
      let w1 : World σ := ⟨s1, w.nextConn + 1, .dial rdb.address (some inner) none :: w.log⟩
      match doCmd B inner ⟨"AUTH", [.str rdb.password]⟩ w1 with
      | (w2, (_, some err)) => (closeConn inner w2, (none, some err))
      | (w2, (_, none)) => (w2, (none, none))
  | some p =>
    (⟨w.state, w.nextConn + 1, .poolGet p w.nextConn :: w.log⟩, (some w.nextConn, none))

/-- The opening lines shared by the six operations:
`conn := rdb.conn; if rdb.conn == nil { conn, err = rdb.connect(); if err != nil
{ return zero, err }; defer conn.Close() }`, followed by the body.  `onErr`
builds the early return.  A nil `conn` makes `defer conn.Close()` panic; the
deferred `Close` runs when the body returns or panics. -/
def withConn {σ α : Type} (B : Backend σ) (rdb : RedisDB) (onErr : GoError → α)
    (body : ConnId → World σ → World σ × Outcome α) (w : World σ) : World σ × Outcome α :=
  match rdb.conn with
  | some c => body c w
  | none =>
    match connect B rdb w with
    | (w1, (_, some err)) => (w1, .returned (onErr err))
    | (w1, (none, none)) => (w1, .panicked .nilDereference)
    | (w1, (some c, none)) =>
      match body c w1 with
      | (w2, .timeout) => (w2, .timeout)
      | (w2, out) => (closeConn c w2, out)

/-- Source `redisDB.ReadKeys`. -/
def ReadKeys {σ : Type} (B : Backend σ) (rdb : RedisDB) (w : World σ) :
    World σ × Outcome (Option (List String) × Option GoError) :=
  withConn B rdb (fun err => (none, some err))
    (fun c w1 =>
      let r := doCmd B c ⟨"HKEYS", [.str rdb.ns.String]⟩ w1
      (r.1, .returned (redisStrings r.2))) w

/-- Source `redisDB.ReadEntry`. -/
def ReadEntry {σ : Type} (B : Backend σ) (rdb : RedisDB) (key : String) (w : World σ) :
    World σ × Outcome (String × Option GoError) :=
  withConn B rdb (fun err => ("", some err))
    (fun c w1 =>
      let r := doCmd B c ⟨"HGET", [.str rdb.ns.String, .str key]⟩ w1
      (r.1, .returned (redisString r.2))) w

/-- Source `redisDB.ReadAllEntries`. -/
def ReadAllEntries {σ : Type} (B : Backend σ) (rdb : RedisDB) (w : World σ) :
    World σ × Outcome (Option GoMap × Option GoError) :=
  withConn B rdb (fun err => (none, some err))
    (fun c w1 =>
      let r := doCmd B c ⟨"HGETALL", [.str rdb.ns.String]⟩ w1
      (r.1, .returned (redisStringMap r.2))) w

/-- The inner loop of `ReadAllMatchingEntries` (source lines 173-181), from
index `i`:
`for ; i < len(keys); i++ { if i+1 > len(keys) { break }; matches[keys[i]] = keys[i+1]; i++ }`.
An index outside the slice panics.  The budget is one unit per iteration;
`matched` is the map `matches` of the source. -/
def pairLoop (keys : List String) : Nat → Nat → GoMap → Outcome GoMap
  | 0, _, _ => .timeout
  | budget + 1, i, matched =>
    if i < keys.length then
      if i + 1 > keys.length then .returned matched
      else
        match keys[i]?, keys[i + 1]? with
        | some k, some v => pairLoop keys budget (i + 1 + 1) (mapPut matched k v)
        | _, _ => .panicked .indexOutOfRange
    else .returned matched

/-- The outer `for` loop of `ReadAllMatchingEntries` (source lines 162-185)
on connection `c`, with the loop variables `cursor`, `keys` and `matches`
(here `matched`); one unit of budget per HSCAN. -/
def scanLoop {σ : Type} (B : Backend σ) (rdb : RedisDB) (pattern : String) (c : ConnId) :
    Nat → Int → List String → GoMap → World σ →
    World σ × Outcome (Option GoMap × Option GoError)
  | 0, _, _, _, w => (w, .timeout)
  | budget + 1, cursor, keys, matched, w =>
    let r := doCmd B c
      ⟨"HSCAN", [.str rdb.ns.String, .int cursor, .str "MATCH", .str pattern]⟩ w
    match redisValues r.2 with
    | (_, some err) => (r.1, .returned (some matched, some err))
    | (none, none) => (r.1, .returned (some matched, none))
    | (some items, none) =>
      if items.length = 0 then (r.1, .returned (some matched, none))
      else
        match redisScan items cursor keys with
        | .panicked p => (r.1, .panicked p)
        | .timeout => (r.1, .timeout)
        | .returned (_, _, some err) => (r.1, .returned (some matched, some err))
        | .returned (cursor1, keys1, none) =>
          match pairLoop keys1 (keys1.length + 1) 0 matched with
          | .panicked p => (r.1, .panicked p)
          | .timeout => (r.1, .timeout)
          | .returned matched1 =>
            if cursor1 = 0 then (r.1, .returned (some matched1, none))
            else scanLoop B rdb pattern c budget cursor1 keys1 matched1 r.1

/-- Source `redisDB.ReadAllMatchingEntries`; `budget` bounds the number of
scan pages the model follows. -/
def ReadAllMatchingEntries {σ : Type} (B : Backend σ) (rdb : RedisDB) (pattern : String)
    (budget : Nat) (w : World σ) : World σ × Outcome (Option GoMap × Option GoError) :=
  withConn B rdb (fun err => (none, some err))
    (fun c w1 => scanLoop B rdb pattern c budget 0 [] [] w1) w

/-- Source `redisDB.InsertEntry`. -/
def InsertEntry {σ : Type} (B : Backend σ) (rdb : RedisDB) (key entry : String) (w : World σ) :
    World σ × Outcome (Option GoError) :=
  withConn B rdb (fun err => some err)
    (fun c w1 =>
      let r := doCmd B c ⟨"HSET", [.str rdb.ns.String, .str key, .str entry]⟩ w1
      (r.1, .returned r.2.2)) w

/-- Source `redisDB.DeleteEntry`. -/
def DeleteEntry {σ : Type} (B : Backend σ) (rdb : RedisDB) (key : String) (w : World σ) :
    World σ × Outcome (Int × Option GoError) :=
  withConn B rdb (fun err => (0, some err))
    (fun c w1 =>
      let r := doCmd B c ⟨"HDEL", [.str rdb.ns.String, .str key]⟩ w1
      (r.1, .returned (redisInt r.2))) w

/-- A call of one of the six operations, as a caller of the `Database`
interface makes it. -/
inductive Call where
  | readKeys
  | readEntry (key : String)
  | readAllEntries
  | readAllMatchingEntries (pattern : String) (budget : Nat)
  | insertEntry (key entry : String)
  | deleteEntry (key : String)
  deriving DecidableEq, Repr

/-- Apply a function to the value a call returns. -/
def Outcome.map {α β : Type} (f : α → β) : Outcome α → Outcome β
  | .returned a => .returned (f a)
  | .panicked p => .panicked p
  | .timeout => .timeout

/-- Run one call on the adapter: the world it leaves behind and the `error`
result of the operation (the last of its results). -/
def runCall {σ : Type} (B : Backend σ) (rdb : RedisDB) :
    Call → World σ → World σ × Outcome (Option GoError)
  | .readKeys, w => ((ReadKeys B rdb w).1, (ReadKeys B rdb w).2.map Prod.snd)
  | .readEntry key, w => ((ReadEntry B rdb key w).1, (ReadEntry B rdb key w).2.map Prod.snd)
  | .readAllEntries, w => ((ReadAllEntries B rdb w).1, (ReadAllEntries B rdb w).2.map Prod.snd)
  | .readAllMatchingEntries pattern budget, w =>
    ((ReadAllMatchingEntries B rdb pattern budget w).1,
      (ReadAllMatchingEntries B rdb pattern budget w).2.map Prod.snd)
  | .insertEntry key entry, w =>
    ((InsertEntry B rdb key entry w).1, (InsertEntry B rdb key entry w).2.map id)
  | .deleteEntry key, w => ((DeleteEntry B rdb key w).1, (DeleteEntry B rdb key w).2.map Prod.snd)

/-- Run a sequence of calls on the same adapter, one after the other. -/
def runCalls {σ : Type} (B : Backend σ) (rdb : RedisDB) : List Call → World σ → World σ
  | [], w => w
  | call :: rest, w => runCalls B rdb rest (runCall B rdb call w).1

/-- The body of a call once it holds connection `c`, with its `error`
result only. -/
def callBody {σ : Type} (B : Backend σ) (rdb : RedisDB) :
    Call → ConnId → World σ → World σ × Outcome (Option GoError)
  | .readKeys, c, w =>
    let r := doCmd B c ⟨"HKEYS", [.str rdb.ns.String]⟩ w
    (r.1, .returned (redisStrings r.2).2)
  | .readEntry key, c, w =>
    let r := doCmd B c ⟨"HGET", [.str rdb.ns.String, .str key]⟩ w
    (r.1, .returned (redisString r.2).2)
  | .readAllEntries, c, w =>
    let r := doCmd B c ⟨"HGETALL", [.str rdb.ns.String]⟩ w
    (r.1, .returned (redisStringMap r.2).2)
  | .readAllMatchingEntries pattern budget, c, w =>
    ((scanLoop B rdb pattern c budget 0 [] [] w).1,
      (scanLoop B rdb pattern c budget 0 [] [] w).2.map Prod.snd)
  | .insertEntry key entry, c, w =>
    let r := doCmd B c ⟨"HSET", [.str rdb.ns.String, .str key, .str entry]⟩ w
    (r.1, .returned r.2.2)
  | .deleteEntry key, c, w =>
    let r := doCmd B c ⟨"HDEL", [.str rdb.ns.String, .str key]⟩ w
    (r.1, .returned (redisInt r.2).2)

/-- The names of the six data commands. -/
def dataCommands : List String := ["HKEYS", "HGET", "HGETALL", "HSCAN", "HSET", "HDEL"]

/-- An event is a data command of the adapter on connection `c`: one of the
six commands, with the adapter's namespace as first argument; and when the
command failed with `e`, the call `out` returned `e` as its error. -/
def GoodCmd (rdb : RedisDB) (c : ConnId) (out : Outcome (Option GoError)) (ev : Event) : Prop :=
  ∃ cmd r err, ev = .command c cmd r err ∧ cmd.name ∈ dataCommands ∧
    cmd.args.head? = some (.str rdb.ns.String) ∧ ∀ e, err = some e → out = .returned (some e)

/-- Whether a call inserts or deletes the key `k`. -/
def Call.writes (k : String) : Call → Bool
  | .insertEntry key _ => key == k
  | .deleteEntry key => key == k
  | _ => false

/-! ## Two servers -/

/-- A server that answers the commands it receives from a script, one
scripted answer per command, whatever the command is; a dial succeeds. -/
def scripted : Backend (List (Reply × Option GoError)) :=
  ⟨fun s _ _ => (s, none),
   fun s _ _ =>
    match s with
    | [] => ([], (.nil, some (.conn "EOF")))
    | r :: rest => (rest, r)⟩

/-- One page of an HSCAN reply as Redis sends it: the next cursor as a
bulk string and the flat list key, value, key, value, ... -/
structure Page where
  cursorText : String
  fields : List String
  deriving DecidableEq, Repr

/-- The reply that carries a page: a two-element array. -/
def Page.reply (p : Page) : Reply :=
  .array [.bulk p.cursorText, .array (p.fields.map Reply.bulk)]

/-- The cursor a page carries. -/
def Page.cursor (p : Page) : Int := (parseInt p.cursorText 64).1

/-- A page is well formed when its cursor is a decimal 64-bit integer and
its flat list has even length. -/
def Page.wellFormed (p : Page) : Prop :=
  (parseInt p.cursorText 64).2 = none ∧ p.fields.length % 2 = 0

instance (p : Page) : Decidable p.wellFormed := by
  unfold Page.wellFormed; exact inferInstance

/-- The (key, value) pairs of a flat list, by position: pair `j` is made of
the elements at positions `2 * j` and `2 * j + 1`. -/
def pairsAt (xs : List String) : List (String × String) :=
  (List.range (xs.length / 2)).map (fun j => (xs.getD (2 * j) "", xs.getD (2 * j + 1) ""))

/-- Write a list of pairs into a map, in order. -/
def putAll (m : GoMap) (ps : List (String × String)) : GoMap :=
  ps.foldl (fun acc kv => mapPut acc kv.1 kv.2) m

/-- The merge of a sequence of pages into a map: page after page, pair
after pair. -/
def mergePages (m : GoMap) (pages : List Page) : GoMap :=
  pages.foldl (fun acc p => putAll acc (pairsAt p.fields)) m

/-- The commands of a log, oldest first. -/
def commandsOf (log : List Event) : List Command :=
  log.reverse.filterMap (fun ev =>
    match ev with
    | .command _ cmd _ _ => some cmd
    | _ => none)

/-- The HSCAN command of the adapter for a cursor and a pattern. -/
def hscanCommand (rdb : RedisDB) (pattern : String) (cursor : Int) : Command :=
  ⟨"HSCAN", [.str rdb.ns.String, .int cursor, .str "MATCH", .str pattern]⟩

/-- The contents of a hash store: (namespace, field) to value, each
field at most once. -/
abbrev Store := List ((String × String) × String)

/-- The value of a field. -/
def storeGet (st : Store) (ns f : String) : Option String :=
  List.lookup (ns, f) st

/-- Remove a field. -/
def storeDel (st : Store) (ns f : String) : Store :=
  st.filter (fun e => e.1 != (ns, f))

/-- Create or overwrite a field. -/
def storeSet (st : Store) (ns f v : String) : Store :=
  ((ns, f), v) :: storeDel st ns f

/-- The fields of one hash, flat: field, value, field, value, ... -/
def storeFlat (keep : String → Bool) (ns : String) : Store → List Reply
  | [] => []
  | e :: rest =>
    if e.1.1 == ns && keep e.1.2 then .bulk e.1.2 :: .bulk e.2 :: storeFlat keep ns rest
    else storeFlat keep ns rest

/-- Reference hash semantics of the backing store: HSET upserts a field
and answers 1 for a new field and 0 for an overwrite, HGET fetches it (nil
when absent), HDEL removes it and answers the number of fields removed,
HKEYS and HGETALL list the hash, HSCAN answers the whole match in one page
with cursor 0 (`glob pattern field` decides the match), AUTH answers OK. -/
def refExec (glob : String → String → Bool) (st : Store) (cmd : Command) :
    Store × (Reply × Option GoError) :=
  match cmd.name, cmd.args with
  | "AUTH", _ => (st, (.status "OK", none))
  | "HSET", [.str ns, .str f, .str v] =>
    (storeSet st ns f v, (.int (if (storeGet st ns f).isSome then 0 else 1), none))
  | "HGET", [.str ns, .str f] =>
    (st, (match storeGet st ns f with
          | some v => .bulk v
          | none => .nil, none))
  | "HDEL", [.str ns, .str f] =>
    (storeDel st ns f, (.int (if (storeGet st ns f).isSome then 1 else 0), none))
  | "HKEYS", [.str ns] =>
    (st, (.array ((st.filter (fun e => e.1.1 == ns)).map (fun e => Reply.bulk e.1.2)), none))
  | "HGETALL", [.str ns] => (st, (.array (storeFlat (fun _ => true) ns st), none))
  | "HSCAN", [.str ns, .int _, .str "MATCH", .str pattern] =>
    (st, (.array [.bulk "0", .array (storeFlat (glob pattern) ns st)], none))
  | _, _ => (st, (.error (.conn "ERR"), some (.conn "ERR")))

/-- The reference store as a backend; every dial succeeds. -/
def refBackend (glob : String → String → Bool) : Backend Store :=
  ⟨fun st _ _ => (st, none), fun st _ cmd => refExec glob st cmd⟩

/-- The (key, value) pairs of a flat list, two elements at a time; a
last element without a partner is left out. -/
def pairsOf : List String → List (String × String)
  | k :: v :: rest => (k, v) :: pairsOf rest
  | _ => []

/-- The events a deferred `Close` adds once the body has ended: one `Close`
when the call returned or panicked, none while it is still running. -/
def closing {α : Type} (c : ConnId) : Outcome α → List Event
  | .timeout => []
  | _ => [.close c]

/-- What an event of a call can be: a dial, a pool checkout, a `Close`, the
AUTH command of `connect`, or a data command of the adapter; a failed command
decides the error the call returns. -/
def TraceOK (rdb : RedisDB) (out : Outcome (Option GoError)) (ev : Event) : Prop :=
  (∃ a c err, ev = .dial a c err) ∨ (∃ p c, ev = .poolGet p c) ∨ (∃ c, ev = .close c) ∨
  (∃ c r err, ev = .command c ⟨"AUTH", [.str rdb.password]⟩ r err ∧
    ∀ e, err = some e → out = .returned (some e)) ∨
  (∃ c, GoodCmd rdb c out ev)

/-- The script that answers one HSCAN after the other with the given pages. -/
def pageScript (pages : List Page) : List (Reply × Option GoError) :=
  pages.map (fun p => (p.reply, none))

/-- The log after the scan loop has gone through the pages from `cursor`:
one HSCAN per page, the first with `cursor`, each later one with the cursor
of the page before it. -/
def scanLog (rdb : RedisDB) (pattern : String) (c : ConnId) :
    Int → List Page → List Event → List Event
  | _, [], log => log
  | cursor, p :: ps, log =>
    scanLog rdb pattern c p.cursor ps
      (.command c (hscanCommand rdb pattern cursor) p.reply none :: log)

/-- The loop variable `cursor` after the pages. -/
def cursorAfter (cursor : Int) : List Page → Int
  | [] => cursor
  | p :: ps => cursorAfter p.cursor ps

/-- The loop variable `keys` after the pages. -/
def keysAfter (keys : List String) : List Page → List String
  | [] => keys
  | p :: ps => keysAfter p.fields ps

/-- The adapter can obtain a connection that is not nil: it holds a
persistent connection or a pool. -/
def RedisDB.usable (rdb : RedisDB) : Prop :=
  rdb.conn ≠ none ∨ rdb.pool ≠ none

/-- Every (key, value) occurrence of a sequence of pages, in the order the
loop meets them: page after page, and inside a page by position. -/
def occurrences (pages : List Page) : List (String × String) :=
  pages.flatMap (fun p => pairsAt p.fields)

/-! ## The pairing loop -/

theorem pairLoop_suffix : ∀ (suf pre : List String) (m : GoMap) (budget : Nat),
    suf.length / 2 + 1 ≤ budget →
    pairLoop (pre ++ suf) budget pre.length m =
      if suf.length % 2 = 0 then .returned (putAll m (pairsOf suf))
      else .panicked .indexOutOfRange
  | [], pre, m, budget, h => by
    obtain ⟨b, rfl⟩ : ∃ b, budget = b + 1 := ⟨budget - 1, by omega⟩
    simp [pairLoop, putAll, pairsOf]
  | [x], pre, m, budget, h => by
    obtain ⟨b, rfl⟩ : ∃ b, budget = b + 1 := ⟨budget - 1, by omega⟩
    have hv : (pre ++ [x])[pre.length + 1]? = none := by
      rw [List.getElem?_eq_none_iff]
      simp
    simp [pairLoop, hv]
  | k :: v :: rest, pre, m, budget, h => by
    obtain ⟨b, rfl⟩ : ∃ b, budget = b + 1 := ⟨budget - 1, by omega⟩
    have hb : rest.length / 2 + 1 ≤ b := by
      simp only [List.length_cons] at h
      omega
    have ih := pairLoop_suffix rest (pre ++ [k, v]) (mapPut m k v) b hb
    simp only [List.append_assoc, List.cons_append, List.nil_append, List.length_append,
      List.length_cons, List.length_nil] at ih
    have hparity : (rest.length + 1 + 1) % 2 = rest.length % 2 := by omega
    simp only [pairLoop, List.length_append, List.length_cons, hparity]
    have h1 : pre.length < pre.length + (rest.length + 1 + 1) := by omega
    have h2 : ¬ (pre.length + 1 > pre.length + (rest.length + 1 + 1)) := by omega
    have hk : (pre ++ k :: v :: rest)[pre.length]? = some k := by
      rw [List.getElem?_append_right (Nat.le_refl _)]
      simp
    have hv : (pre ++ k :: v :: rest)[pre.length + 1]? = some v := by
      rw [List.getElem?_append_right (by omega)]
      simp
    simp only [h1, h2, if_true, if_false, hk, hv]
    have hidx : pre.length + 1 + 1 = pre.length + (0 + 1 + 1) := by omega
    rw [hidx, ih]
    simp [pairsOf, putAll]

theorem pairLoop_whole (keys : List String) (m : GoMap) :
    pairLoop keys (keys.length + 1) 0 m =
      if keys.length % 2 = 0 then .returned (putAll m (pairsOf keys))
      else .panicked .indexOutOfRange := by
  have h := pairLoop_suffix keys [] m (keys.length + 1) (by omega)
  simpa using h

theorem pairsAt_eq_pairsOf : ∀ (xs : List String), pairsAt xs = pairsOf xs
  | [] => by simp [pairsAt, pairsOf]
  | [x] => by simp [pairsAt, pairsOf]
  | k :: v :: rest => by
    have ih := pairsAt_eq_pairsOf rest
    have hlen : (k :: v :: rest).length / 2 = rest.length / 2 + 1 := by
      simp only [List.length_cons]
      omega
    unfold pairsAt at ih ⊢
    rw [hlen, List.range_succ_eq_map, List.map_cons, List.map_map, pairsOf, ← ih]
    congr 1

/-! ## `connect` -/

theorem connect_pool {σ : Type} (B : Backend σ) (rdb : RedisDB) (w : World σ) (p : PoolId)
    (h : rdb.pool = some p) :
    connect B rdb w =
      (⟨w.state, w.nextConn + 1, .poolGet p w.nextConn :: w.log⟩, (some w.nextConn, none)) := by
  simp [connect, h]

theorem connect_dial_failed {σ : Type} (B : Backend σ) (rdb : RedisDB) (w : World σ)
    (s1 : σ) (err : GoError) (h : rdb.pool = none)
    (hd : B.dial w.state "tcp" rdb.address = (s1, some err)) :
    connect B rdb w =
      (⟨s1, w.nextConn, .dial rdb.address none (some err) :: w.log⟩, (none, some err)) := by
  simp [connect, h, hd]

theorem connect_auth_failed {σ : Type} (B : Backend σ) (rdb : RedisDB) (w : World σ)
    (s1 s2 : σ) (r : Reply) (err : GoError) (h : rdb.pool = none)
    (hd : B.dial w.state "tcp" rdb.address = (s1, none))
    (ha : B.exec s1 w.nextConn ⟨"AUTH", [.str rdb.password]⟩ = (s2, (r, some err))) :
    connect B rdb w =
      (⟨s2, w.nextConn + 1,
        .close w.nextConn :: .command w.nextConn ⟨"AUTH", [.str rdb.password]⟩ r (some err) ::
          .dial rdb.address (some w.nextConn) none :: w.log⟩, (none, some err)) := by
  simp [connect, h, hd, doCmd, ha, closeConn]

/-- With no pool, a dial that succeeds and an AUTH that succeeds, `connect`
returns a nil connection and a nil error; the dialed connection stays open
and is lost. -/
theorem connect_direct_nil {σ : Type} (B : Backend σ) (rdb : RedisDB) (w : World σ)
    (s1 s2 : σ) (r : Reply) (h : rdb.pool = none)
    (hd : B.dial w.state "tcp" rdb.address = (s1, none))
    (ha : B.exec s1 w.nextConn ⟨"AUTH", [.str rdb.password]⟩ = (s2, (r, none))) :
    connect B rdb w =
      (⟨s2, w.nextConn + 1,
        .command w.nextConn ⟨"AUTH", [.str rdb.password]⟩ r none ::
          .dial rdb.address (some w.nextConn) none :: w.log⟩, (none, none)) := by
  simp [connect, h, hd, doCmd, ha]

/-- Every operation of an adapter built from an address and a credential
panics on the nil connection once the dial and the AUTH have succeeded, and
issues no command after AUTH. -/
theorem withConn_direct_panics {σ α : Type} (B : Backend σ) (rdb : RedisDB) (w : World σ)
    (onErr : GoError → α) (body : ConnId → World σ → World σ × Outcome α)
    (s1 s2 : σ) (r : Reply) (hc : rdb.conn = none) (h : rdb.pool = none)
    (hd : B.dial w.state "tcp" rdb.address = (s1, none))
    (ha : B.exec s1 w.nextConn ⟨"AUTH", [.str rdb.password]⟩ = (s2, (r, none))) :
    withConn B rdb onErr body w =
      (⟨s2, w.nextConn + 1,
        .command w.nextConn ⟨"AUTH", [.str rdb.password]⟩ r none ::
          .dial rdb.address (some w.nextConn) none :: w.log⟩, .panicked .nilDereference) := by
  simp [withConn, hc, connect_direct_nil B rdb w s1 s2 r h hd ha]

/-! ## The shared opening of the operations -/

theorem withConn_map {σ α β : Type} (B : Backend σ) (rdb : RedisDB) (f : α → β)
    (onErr : GoError → α) (body : ConnId → World σ → World σ × Outcome α) (w : World σ) :
    ((withConn B rdb onErr body w).1, (withConn B rdb onErr body w).2.map f) =
      withConn B rdb (fun e => f (onErr e))
        (fun c w1 => ((body c w1).1, (body c w1).2.map f)) w := by
  unfold withConn
  cases rdb.conn with
  | some c => rfl
  | none =>
    rcases connect B rdb w with ⟨w1, (_ | c), (_ | err)⟩
    · rfl
    · rfl
    · rcases hb : body c w1 with ⟨w2, (a | p | _)⟩ <;> simp [hb, Outcome.map]
    · rfl

theorem runCall_eq {σ : Type} (B : Backend σ) (rdb : RedisDB) (call : Call) (w : World σ) :
    runCall B rdb call w = withConn B rdb some (callBody B rdb call) w := by
  cases call with
  | readKeys => exact withConn_map B rdb Prod.snd _ _ w
  | readEntry key => exact withConn_map B rdb Prod.snd _ _ w
  | readAllEntries => exact withConn_map B rdb Prod.snd _ _ w
  | readAllMatchingEntries pattern budget => exact withConn_map B rdb Prod.snd _ _ w
  | insertEntry key entry => exact withConn_map B rdb id _ _ w
  | deleteEntry key => exact withConn_map B rdb Prod.snd _ _ w

theorem withConn_conn {σ α : Type} (B : Backend σ) (rdb : RedisDB) (onErr : GoError → α)
    (body : ConnId → World σ → World σ × Outcome α) (w : World σ) (c : ConnId)
    (hc : rdb.conn = some c) : withConn B rdb onErr body w = body c w := by
  simp [withConn, hc]

theorem withConn_pool {σ α : Type} (B : Backend σ) (rdb : RedisDB) (onErr : GoError → α)
    (body : ConnId → World σ → World σ × Outcome α) (w : World σ) (p : PoolId)
    (hc : rdb.conn = none) (hp : rdb.pool = some p) :
    withConn B rdb onErr body w =
      (⟨(body w.nextConn ⟨w.state, w.nextConn + 1, .poolGet p w.nextConn :: w.log⟩).1.state,
        (body w.nextConn ⟨w.state, w.nextConn + 1, .poolGet p w.nextConn :: w.log⟩).1.nextConn,
        closing w.nextConn
            (body w.nextConn ⟨w.state, w.nextConn + 1, .poolGet p w.nextConn :: w.log⟩).2 ++
          (body w.nextConn ⟨w.state, w.nextConn + 1, .poolGet p w.nextConn :: w.log⟩).1.log⟩,
       (body w.nextConn ⟨w.state, w.nextConn + 1, .poolGet p w.nextConn :: w.log⟩).2) := by
  simp only [withConn, hc, connect_pool B rdb w p hp]
  rcases body w.nextConn ⟨w.state, w.nextConn + 1, .poolGet p w.nextConn :: w.log⟩
    with ⟨w2, (a | q | _)⟩ <;> simp [closing, closeConn]

/-! ## The scan loop, one step at a time -/

theorem redisValues_err (r : Reply) (e : GoError) : redisValues (r, some e) = (none, some e) := by
  cases r <;> rfl

/-- One pass of the scan loop either ends the call in the world right after
its HSCAN, or goes round again from that world; a failed HSCAN ends the call
with the accumulated matches and the command's own error. -/
theorem scanLoop_step {σ : Type} (B : Backend σ) (rdb : RedisDB) (pattern : String)
    (c : ConnId) (budget : Nat) (cursor : Int) (keys : List String) (matched : GoMap)
    (w : World σ) :
    (∃ out, scanLoop B rdb pattern c (budget + 1) cursor keys matched w =
        ((doCmd B c (hscanCommand rdb pattern cursor) w).1, out) ∧
        ∀ e, (doCmd B c (hscanCommand rdb pattern cursor) w).2.2 = some e →
          out = .returned (some matched, some e)) ∨
    ((doCmd B c (hscanCommand rdb pattern cursor) w).2.2 = none ∧
      ∃ cursor1 keys1 matched1,
        scanLoop B rdb pattern c (budget + 1) cursor keys matched w =
          scanLoop B rdb pattern c budget cursor1 keys1 matched1
            (doCmd B c (hscanCommand rdb pattern cursor) w).1) := by
  rcases hr : (doCmd B c (hscanCommand rdb pattern cursor) w).2 with ⟨r, (_ | e)⟩
  · have hr2 : (doCmd B c ⟨"HSCAN", [.str rdb.ns.String, .int cursor, .str "MATCH",
        .str pattern]⟩ w).2 = (r, none) := hr
    simp only [scanLoop, hr2, hscanCommand]
    repeat' first
      | exact Or.inl ⟨_, rfl, by simp⟩
      | exact Or.inr ⟨trivial, _, _, _, rfl⟩
      | split
  · have hr2 : (doCmd B c ⟨"HSCAN", [.str rdb.ns.String, .int cursor, .str "MATCH",
        .str pattern]⟩ w).2 = (r, some e) := hr
    refine Or.inl ⟨.returned (some matched, some e), ?_, ?_⟩
    · simp [scanLoop, hr2, hscanCommand, redisValues_err]
    · intro e1 he1
      simp at he1
      subst he1
      rfl

theorem redisStrings_err (r : Reply) (e : GoError) :
    redisStrings (r, some e) = (none, some e) := by
  cases r <;> rfl

theorem redisString_err (r : Reply) (e : GoError) : redisString (r, some e) = ("", some e) := by
  cases r <;> rfl

theorem redisInt_err (r : Reply) (e : GoError) : redisInt (r, some e) = (0, some e) := by
  cases r <;> rfl

theorem redisStringMap_err (r : Reply) (e : GoError) :
    redisStringMap (r, some e) = (none, some e) := by
  simp [redisStringMap, redisValues_err]

theorem hscan_good (rdb : RedisDB) (pattern : String) (cursor : Int) :
    (hscanCommand rdb pattern cursor).name ∈ dataCommands ∧
      (hscanCommand rdb pattern cursor).args.head? = some (.str rdb.ns.String) := by
  simp [hscanCommand, dataCommands]

/-- The scan loop only adds HSCAN commands on its connection to the log, and
a failed HSCAN is the last one: its error is the error returned. -/
theorem scanLoop_trace {σ : Type} (B : Backend σ) (rdb : RedisDB) (pattern : String)
    (c : ConnId) : ∀ (budget : Nat) (cursor : Int) (keys : List String) (matched : GoMap)
    (w : World σ),
    ∃ evs, (scanLoop B rdb pattern c budget cursor keys matched w).1.log = evs ++ w.log ∧
      (scanLoop B rdb pattern c budget cursor keys matched w).1.nextConn = w.nextConn ∧
      ∀ ev ∈ evs,
        GoodCmd rdb c ((scanLoop B rdb pattern c budget cursor keys matched w).2.map Prod.snd) ev
  | 0, cursor, keys, matched, w => ⟨[], by simp [scanLoop], by simp [scanLoop], by simp⟩
  | budget + 1, cursor, keys, matched, w => by
    rcases scanLoop_step B rdb pattern c budget cursor keys matched w with
      ⟨out, h, hfail⟩ | ⟨hnone, cursor1, keys1, matched1, h⟩
    · rw [h]
      refine ⟨[.command c (hscanCommand rdb pattern cursor)
        (B.exec w.state c (hscanCommand rdb pattern cursor)).2.1
        (B.exec w.state c (hscanCommand rdb pattern cursor)).2.2], by simp [doCmd],
        by simp [doCmd], ?_⟩
      intro ev hev
      simp only [List.mem_singleton] at hev
      refine ⟨_, _, _, hev, (hscan_good rdb pattern cursor).1, (hscan_good rdb pattern cursor).2, ?_⟩
      intro e he
      have := hfail e (by simpa [doCmd] using he)
      simp [this, Outcome.map]
    · rw [h]
      obtain ⟨evs, hlog, hnext, hev⟩ := scanLoop_trace B rdb pattern c budget cursor1 keys1
        matched1 (doCmd B c (hscanCommand rdb pattern cursor) w).1
      refine ⟨evs ++ [.command c (hscanCommand rdb pattern cursor)
        (B.exec w.state c (hscanCommand rdb pattern cursor)).2.1
        (B.exec w.state c (hscanCommand rdb pattern cursor)).2.2], ?_, ?_, ?_⟩
      · rw [hlog]
        simp [doCmd]
      · rw [hnext]
        simp [doCmd]
      · intro ev hmem
        rcases List.mem_append.1 hmem with h1 | h1
        · exact hev ev h1
        · simp only [List.mem_singleton] at h1
          refine ⟨_, _, _, h1, (hscan_good rdb pattern cursor).1,
            (hscan_good rdb pattern cursor).2, ?_⟩
          intro e he
          have hn : (B.exec w.state c (hscanCommand rdb pattern cursor)).2.2 = none := by
            simpa [doCmd] using hnone
          rw [hn] at he
          cases he

/-- The body of every call only adds data commands on its connection to the
log, each with the adapter's namespace first, and a failed command decides the
error the call returns. -/
theorem callBody_trace {σ : Type} (B : Backend σ) (rdb : RedisDB) (call : Call) (c : ConnId)
    (w : World σ) :
    ∃ evs, (callBody B rdb call c w).1.log = evs ++ w.log ∧
      (callBody B rdb call c w).1.nextConn = w.nextConn ∧
      ∀ ev ∈ evs, GoodCmd rdb c (callBody B rdb call c w).2 ev := by
  cases call with
  | readAllMatchingEntries pattern budget =>
    exact scanLoop_trace B rdb pattern c budget 0 [] [] w
  | readKeys =>
    refine ⟨[_], rfl, rfl, ?_⟩
    intro ev hev
    simp only [List.mem_singleton] at hev
    refine ⟨_, _, _, hev, by simp [dataCommands], rfl, ?_⟩
    intro e he
    simp only [callBody, doCmd]
    rw [show B.exec w.state c ⟨"HKEYS", [.str rdb.ns.String]⟩ = (_, (_, _)) from rfl, he,
      redisStrings_err]
  | readEntry key =>
    refine ⟨[_], rfl, rfl, ?_⟩
    intro ev hev
    simp only [List.mem_singleton] at hev
    refine ⟨_, _, _, hev, by simp [dataCommands], rfl, ?_⟩
    intro e he
    simp only [callBody, doCmd]
    rw [show B.exec w.state c ⟨"HGET", [.str rdb.ns.String, .str key]⟩ = (_, (_, _)) from rfl,
      he, redisString_err]
  | readAllEntries =>
    refine ⟨[_], rfl, rfl, ?_⟩
    intro ev hev
    simp only [List.mem_singleton] at hev
    refine ⟨_, _, _, hev, by simp [dataCommands], rfl, ?_⟩
    intro e he
    simp only [callBody, doCmd]
    rw [show B.exec w.state c ⟨"HGETALL", [.str rdb.ns.String]⟩ = (_, (_, _)) from rfl, he,
      redisStringMap_err]
  | insertEntry key entry =>
    refine ⟨[_], rfl, rfl, ?_⟩
    intro ev hev
    simp only [List.mem_singleton] at hev
    refine ⟨_, _, _, hev, by simp [dataCommands], rfl, ?_⟩
    intro e he
    simp only [callBody, doCmd]
    rw [he]
  | deleteEntry key =>
    refine ⟨[_], rfl, rfl, ?_⟩
    intro ev hev
    simp only [List.mem_singleton] at hev
    refine ⟨_, _, _, hev, by simp [dataCommands], rfl, ?_⟩
    intro e he
    simp only [callBody, doCmd]
    rw [show B.exec w.state c ⟨"HDEL", [.str rdb.ns.String, .str key]⟩ = (_, (_, _)) from rfl,
      he, redisInt_err]

theorem withConn_dial_failed {σ α : Type} (B : Backend σ) (rdb : RedisDB) (w : World σ)
    (onErr : GoError → α) (body : ConnId → World σ → World σ × Outcome α)
    (s1 : σ) (err : GoError) (hc : rdb.conn = none) (h : rdb.pool = none)
    (hd : B.dial w.state "tcp" rdb.address = (s1, some err)) :
    withConn B rdb onErr body w =
      (⟨s1, w.nextConn, .dial rdb.address none (some err) :: w.log⟩,
        .returned (onErr err)) := by
  simp [withConn, hc, connect_dial_failed B rdb w s1 err h hd]

theorem withConn_auth_failed {σ α : Type} (B : Backend σ) (rdb : RedisDB) (w : World σ)
    (onErr : GoError → α) (body : ConnId → World σ → World σ × Outcome α)
    (s1 s2 : σ) (r : Reply) (err : GoError) (hc : rdb.conn = none) (h : rdb.pool = none)
    (hd : B.dial w.state "tcp" rdb.address = (s1, none))
    (ha : B.exec s1 w.nextConn ⟨"AUTH", [.str rdb.password]⟩ = (s2, (r, some err))) :
    withConn B rdb onErr body w =
      (⟨s2, w.nextConn + 1,
        .close w.nextConn :: .command w.nextConn ⟨"AUTH", [.str rdb.password]⟩ r (some err) ::
          .dial rdb.address (some w.nextConn) none :: w.log⟩, .returned (onErr err)) := by
  simp [withConn, hc, connect_auth_failed B rdb w s1 s2 r err h hd ha]

/-- With a pool and no persistent connection, a call checks out one
connection, runs its data commands on it, and closes it once when it ends. -/
theorem runCall_pool {σ : Type} (B : Backend σ) (rdb : RedisDB) (call : Call) (w : World σ)
    (p : PoolId) (hc : rdb.conn = none) (hp : rdb.pool = some p) :
    ∃ evs, (runCall B rdb call w).1.log =
        closing w.nextConn (runCall B rdb call w).2 ++ evs ++ .poolGet p w.nextConn :: w.log ∧
      ∀ ev ∈ evs, GoodCmd rdb w.nextConn (runCall B rdb call w).2 ev := by
  rw [runCall_eq, withConn_pool B rdb some (callBody B rdb call) w p hc hp]
  obtain ⟨evs, hlog, _, hev⟩ := callBody_trace B rdb call w.nextConn
    ⟨w.state, w.nextConn + 1, .poolGet p w.nextConn :: w.log⟩
  exact ⟨evs, by simp [hlog], hev⟩

/-- With a persistent connection, a call only runs its data commands, all of
them on that connection. -/
theorem runCall_conn {σ : Type} (B : Backend σ) (rdb : RedisDB) (call : Call) (w : World σ)
    (c : ConnId) (hc : rdb.conn = some c) :
    ∃ evs, (runCall B rdb call w).1.log = evs ++ w.log ∧
      ∀ ev ∈ evs, GoodCmd rdb c (runCall B rdb call w).2 ev := by
  rw [runCall_eq, withConn_conn B rdb some (callBody B rdb call) w c hc]
  obtain ⟨evs, hlog, _, hev⟩ := callBody_trace B rdb call c w
  exact ⟨evs, hlog, hev⟩

/-- Every event of a call, whatever the adapter. -/
theorem runCall_trace {σ : Type} (B : Backend σ) (rdb : RedisDB) (call : Call) (w : World σ) :
    ∃ evs, (runCall B rdb call w).1.log = evs ++ w.log ∧
      ∀ ev ∈ evs, TraceOK rdb (runCall B rdb call w).2 ev := by
  cases hc : rdb.conn with
  | some c =>
    obtain ⟨evs, hlog, hev⟩ := runCall_conn B rdb call w c hc
    exact ⟨evs, hlog, fun ev h => Or.inr (Or.inr (Or.inr (Or.inr ⟨c, hev ev h⟩)))⟩
  | none =>
    cases hp : rdb.pool with
    | some p =>
      obtain ⟨evs, hlog, hev⟩ := runCall_pool B rdb call w p hc hp
      refine ⟨closing w.nextConn (runCall B rdb call w).2 ++ evs ++ [.poolGet p w.nextConn],
        by simp [hlog], ?_⟩
      intro ev hmem
      simp only [List.mem_append, List.mem_singleton] at hmem
      rcases hmem with (h1 | h1) | h1
      · refine Or.inr (Or.inr (Or.inl ⟨w.nextConn, ?_⟩))
        cases hout : (runCall B rdb call w).2 <;> simp [hout, closing] at h1 <;> exact h1
      · exact Or.inr (Or.inr (Or.inr (Or.inr ⟨w.nextConn, hev ev h1⟩)))
      · exact Or.inr (Or.inl ⟨p, w.nextConn, h1⟩)
    | none =>
      rw [runCall_eq]
      rcases hd : B.dial w.state "tcp" rdb.address with ⟨s1, (_ | err)⟩
      · rcases ha : B.exec s1 w.nextConn ⟨"AUTH", [.str rdb.password]⟩ with ⟨s2, r, (_ | err)⟩
        · rw [withConn_direct_panics B rdb w some _ s1 s2 r hc hp hd ha]
          refine ⟨[.command w.nextConn ⟨"AUTH", [.str rdb.password]⟩ r none,
            .dial rdb.address (some w.nextConn) none], rfl, ?_⟩
          intro ev hmem
          simp only [List.mem_cons, List.mem_singleton, List.not_mem_nil, or_false] at hmem
          rcases hmem with h1 | h1
          · exact Or.inr (Or.inr (Or.inr (Or.inl ⟨_, _, _, h1, by simp⟩)))
          · exact Or.inl ⟨_, _, _, h1⟩
        · rw [withConn_auth_failed B rdb w some _ s1 s2 r err hc hp hd ha]
          refine ⟨[.close w.nextConn,
            .command w.nextConn ⟨"AUTH", [.str rdb.password]⟩ r (some err),
            .dial rdb.address (some w.nextConn) none], rfl, ?_⟩
          intro ev hmem
          simp only [List.mem_cons, List.mem_singleton, List.not_mem_nil, or_false] at hmem
          rcases hmem with h1 | h1 | h1
          · exact Or.inr (Or.inr (Or.inl ⟨_, h1⟩))
          · refine Or.inr (Or.inr (Or.inr (Or.inl ⟨_, _, _, h1, ?_⟩)))
            intro e he
            cases he
            rfl
          · exact Or.inl ⟨_, _, _, h1⟩
      · rw [withConn_dial_failed B rdb w some _ s1 err hc hp hd]
        exact ⟨[.dial rdb.address none (some err)], rfl, fun ev hmem =>
          Or.inl ⟨_, _, _, List.mem_singleton.1 hmem⟩⟩

/-- Every event of a sequence of calls on one adapter. -/
theorem runCalls_trace {σ : Type} (B : Backend σ) (rdb : RedisDB) :
    ∀ (calls : List Call) (w : World σ),
    ∃ evs, (runCalls B rdb calls w).log = evs ++ w.log ∧
      ∀ ev ∈ evs, ∃ out, TraceOK rdb out ev
  | [], w => ⟨[], rfl, by simp⟩
  | call :: rest, w => by
    obtain ⟨evs1, hlog1, hev1⟩ := runCall_trace B rdb call w
    obtain ⟨evs2, hlog2, hev2⟩ := runCalls_trace B rdb rest (runCall B rdb call w).1
    refine ⟨evs2 ++ evs1, ?_, ?_⟩
    · simp only [runCalls]
      rw [hlog2, hlog1, List.append_assoc]
    · intro ev hmem
      rcases List.mem_append.1 hmem with h | h
      · exact hev2 ev h
      · exact ⟨_, hev1 ev h⟩

/-! ## Claims on errors, connections and the namespace -/

/-- C3: for every operation, every adapter and every server, when a command
the operation issues fails with error `e`, the operation returns exactly `e`
as its error result. -/
theorem command_error_returned_unchanged {σ : Type} (B : Backend σ) (rdb : RedisDB)
    (call : Call) (s : σ) (n : Nat) (c : ConnId) (cmd : Command) (r : Reply) (e : GoError)
    (h : Event.command c cmd r (some e) ∈ (runCall B rdb call (World.start s n)).1.log) :
    (runCall B rdb call (World.start s n)).2 = .returned (some e) := by
  obtain ⟨evs, hlog, hev⟩ := runCall_trace B rdb call (World.start s n)
  rw [hlog] at h
  have hmem : Event.command c cmd r (some e) ∈ evs := by
    simpa [World.start] using h
  rcases hev _ hmem with ⟨a, c1, err, h1⟩ | ⟨p, c1, h1⟩ | ⟨c1, h1⟩ |
    ⟨c1, r1, err, h1, h2⟩ | ⟨c1, cmd1, r1, err, h1, _, _, h2⟩
  · cases h1
  · cases h1
  · cases h1
  · injection h1 with _ _ _ herr
    exact h2 e herr.symm
  · injection h1 with _ _ _ herr
    exact h2 e herr.symm

/-- C3, at the input of the test `TestRedisDBReadEntryErrorReturned`: the
HGET of `ReadEntry` fails and the call returns that error. -/
theorem command_error_returned_unchanged_witness :
    Event.command 0 ⟨"HGET", [.str "test", .str "key1error"]⟩ .nil
        (some (.conn "Error calling HGET")) ∈
      (runCall scripted (NewRedisDBWithConn 0 ⟨"test"⟩ "addr" "pass") (.readEntry "key1error")
        (World.start [(Reply.nil, some (GoError.conn "Error calling HGET"))] 1)).1.log ∧
    (runCall scripted (NewRedisDBWithConn 0 ⟨"test"⟩ "addr" "pass") (.readEntry "key1error")
        (World.start [(Reply.nil, some (GoError.conn "Error calling HGET"))] 1)).2 =
      .returned (some (.conn "Error calling HGET")) :=
  ⟨List.Mem.head _,
    command_error_returned_unchanged scripted (NewRedisDBWithConn 0 ⟨"test"⟩ "addr" "pass")
      (.readEntry "key1error") [(Reply.nil, some (GoError.conn "Error calling HGET"))] 1 0
      ⟨"HGET", [.str "test", .str "key1error"]⟩ .nil (.conn "Error calling HGET")
      (List.Mem.head _)⟩

/-- C7: for every operation, every server and every way the operation ends:
with a persistent connection `c` the events of the call are commands on `c`
and nothing else (no dial, no checkout, no `Close`); with a pool and no
persistent connection the events are one checkout of a connection, then
commands on that connection, then one `Close` of it once the call has ended
(returned or panicked). -/
theorem connection_policy {σ : Type} (B : Backend σ) (rdb : RedisDB) (call : Call) (s : σ)
    (n : Nat) :
    (∀ c, rdb.conn = some c →
      ∀ ev ∈ (runCall B rdb call (World.start s n)).1.log,
        ∃ cmd r err, ev = Event.command c cmd r err) ∧
    (∀ p, rdb.conn = none → rdb.pool = some p →
      ∃ cmds, (∀ ev ∈ cmds, ∃ cmd r err, ev = Event.command n cmd r err) ∧
        (runCall B rdb call (World.start s n)).1.log =
          closing n (runCall B rdb call (World.start s n)).2 ++ cmds ++ [.poolGet p n]) := by
  constructor
  · intro c hc ev hmem
    obtain ⟨evs, hlog, hev⟩ := runCall_conn B rdb call (World.start s n) c hc
    rw [hlog] at hmem
    have hmem2 : ev ∈ evs := by simpa [World.start] using hmem
    obtain ⟨cmd, r, err, h1, _⟩ := hev ev hmem2
    exact ⟨cmd, r, err, h1⟩
  · intro p hc hp
    obtain ⟨evs, hlog, hev⟩ := runCall_pool B rdb call (World.start s n) p hc hp
    refine ⟨evs, ?_, ?_⟩
    · intro ev hmem
      obtain ⟨cmd, r, err, h1, _⟩ := hev ev hmem
      exact ⟨cmd, r, err, h1⟩
    · rw [hlog]
      simp [World.start]

/-- C8: the three constructors store the namespace they are given, and in
every sequence of operations on one adapter every data command issued (HKEYS,
HGET, HGETALL, HSCAN, HSET, HDEL) has that namespace as its first argument;
the only other command is the AUTH of `connect`. -/
theorem namespace_fixed {σ : Type} (B : Backend σ) (rdb : RedisDB) (calls : List Call) (s : σ)
    (n : Nat) :
    ((∀ ns a pw, (NewRedisDB ns a pw).ns = ns) ∧
      (∀ conn ns a pw, (NewRedisDBWithConn conn ns a pw).ns = ns) ∧
      (∀ ns pool, (NewRedisDBWithPool ns pool).ns = ns)) ∧
    ∀ c cmd r err, Event.command c cmd r err ∈ (runCalls B rdb calls (World.start s n)).log →
      (cmd.name = "AUTH" ∨ cmd.name ∈ dataCommands) ∧
      (cmd.name ∈ dataCommands → cmd.args.head? = some (.str rdb.ns.String)) := by
  refine ⟨⟨fun _ _ _ => rfl, fun _ _ _ _ => rfl, fun _ _ => rfl⟩, ?_⟩
  intro c cmd r err hmem
  obtain ⟨evs, hlog, hev⟩ := runCalls_trace B rdb calls (World.start s n)
  rw [hlog] at hmem
  have hmem2 : Event.command c cmd r err ∈ evs := by simpa [World.start] using hmem
  obtain ⟨out, hok⟩ := hev _ hmem2
  rcases hok with ⟨a, c1, e1, h1⟩ | ⟨p, c1, h1⟩ | ⟨c1, h1⟩ |
    ⟨c1, r1, e1, h1, _⟩ | ⟨c1, cmd1, r1, e1, h1, hname, hhead, _⟩
  · cases h1
  · cases h1
  · cases h1
  · injection h1 with _ hcmd _ _
    subst hcmd
    refine ⟨Or.inl rfl, fun h => absurd h ?_⟩
    show ¬ ("AUTH" ∈ dataCommands)
    decide
  · injection h1 with _ hcmd _ _
    subst hcmd
    exact ⟨Or.inr hname, fun _ => hhead⟩

/-! ## The scan loop on well-formed pages -/

theorem scanAll_bulk : ∀ (xs : List String),
    scanAll (xs.map Reply.bulk) = .returned (.ok xs)
  | [] => rfl
  | x :: xs => by
    simp [scanAll, scanElem, scanAll_bulk xs]

/-- One pass of the scan loop over a page whose cursor is a decimal number:
an even flat list is paired into the map and the loop stops on cursor 0 or
goes on from the page's cursor; an odd flat list makes the pairing loop panic. -/
theorem scanLoop_page {σ : Type} (B : Backend σ) (rdb : RedisDB) (pattern : String)
    (c : ConnId) (budget : Nat) (cursor : Int) (keys : List String) (matched : GoMap)
    (w : World σ) (p : Page) (s1 : σ)
    (hexec : B.exec w.state c (hscanCommand rdb pattern cursor) = (s1, (p.reply, none)))
    (hcur : (parseInt p.cursorText 64).2 = none) :
    scanLoop B rdb pattern c (budget + 1) cursor keys matched w =
      if p.fields.length % 2 = 0 then
        if p.cursor = 0 then
          (⟨s1, w.nextConn, .command c (hscanCommand rdb pattern cursor) p.reply none :: w.log⟩,
            .returned (some (putAll matched (pairsOf p.fields)), none))
        else
          scanLoop B rdb pattern c budget p.cursor p.fields (putAll matched (pairsOf p.fields))
            ⟨s1, w.nextConn, .command c (hscanCommand rdb pattern cursor) p.reply none :: w.log⟩
      else
        (⟨s1, w.nextConn, .command c (hscanCommand rdb pattern cursor) p.reply none :: w.log⟩,
          .panicked .indexOutOfRange) := by
  have hexec2 : B.exec w.state c ⟨"HSCAN", [.str rdb.ns.String, .int cursor, .str "MATCH",
      .str pattern]⟩ = (s1, (p.reply, none)) := hexec
  have hparse : parseInt p.cursorText 64 = (p.cursor, none) := by
    rw [← hcur]
    rfl
  simp only [scanLoop, doCmd, hexec2, Page.reply, redisValues, redisScan, assignInt64,
    assignStrings, scanAll_bulk, hparse, pairLoop_whole, hscanCommand]
  by_cases hpar : p.fields.length % 2 = 0
  · by_cases hz : p.cursor = 0 <;> simp [hpar, hz]
  · simp [hpar]

theorem mergePages_cons (matched : GoMap) (p : Page) (ps : List Page) :
    mergePages matched (p :: ps) = mergePages (putAll matched (pairsOf p.fields)) ps := by
  simp [mergePages, pairsAt_eq_pairsOf]

/-- The scan loop over pages that all ask to go on (well formed, cursor not
zero), answered by the script one after the other. -/
theorem scanLoop_pages (rdb : RedisDB) (pattern : String) (c : ConnId) :
    ∀ (pages : List Page) (budget : Nat) (cursor : Int) (keys : List String) (matched : GoMap)
      (w : World (List (Reply × Option GoError))) (rest : List (Reply × Option GoError)),
    (∀ p ∈ pages, p.wellFormed ∧ p.cursor ≠ 0) → w.state = pageScript pages ++ rest →
    scanLoop scripted rdb pattern c (pages.length + budget) cursor keys matched w =
      scanLoop scripted rdb pattern c budget (cursorAfter cursor pages) (keysAfter keys pages)
        (mergePages matched pages) ⟨rest, w.nextConn, scanLog rdb pattern c cursor pages w.log⟩
  | [], budget, cursor, keys, matched, w, rest, _, hst => by
    cases w with
    | mk st nc log =>
      simp only [pageScript, List.map_nil, List.nil_append] at hst
      subst hst
      simp [cursorAfter, keysAfter, mergePages, scanLog]
  | p :: ps, budget, cursor, keys, matched, w, rest, hgood, hst => by
    have hp := hgood p (List.mem_cons_self _ _)
    have hexec : scripted.exec w.state c (hscanCommand rdb pattern cursor) =
        (pageScript ps ++ rest, (p.reply, none)) := by
      rw [hst]
      rfl
    have hlen : (p :: ps).length + budget = (ps.length + budget) + 1 := by
      simp only [List.length_cons]
      omega
    rw [hlen, scanLoop_page scripted rdb pattern c (ps.length + budget) cursor keys matched w p
      (pageScript ps ++ rest) hexec hp.1.1]
    simp only [hp.1.2, hp.2, if_true, if_false]
    rw [scanLoop_pages rdb pattern c ps budget p.cursor p.fields _ _ rest
      (fun q hq => hgood q (List.mem_cons_of_mem _ hq)) rfl]
    simp [cursorAfter, keysAfter, mergePages_cons, scanLog]

theorem commandsOf_command (c : ConnId) (cmd : Command) (r : Reply) (err : Option GoError)
    (log : List Event) : commandsOf (.command c cmd r err :: log) = commandsOf log ++ [cmd] := by
  simp [commandsOf, List.filterMap_append]

theorem commandsOf_poolGet (p : PoolId) (c : ConnId) (log : List Event) :
    commandsOf (.poolGet p c :: log) = commandsOf log := by
  simp [commandsOf, List.filterMap_append]

theorem commandsOf_closing {α : Type} (c : ConnId) (out : Outcome α) (log : List Event) :
    commandsOf (closing c out ++ log) = commandsOf log := by
  cases out <;> simp [closing, commandsOf, List.filterMap_append]

theorem commandsOf_scanLog (rdb : RedisDB) (pattern : String) (c : ConnId) :
    ∀ (pages : List Page) (cursor : Int) (log : List Event),
    commandsOf (scanLog rdb pattern c cursor pages log) ++
        [hscanCommand rdb pattern (cursorAfter cursor pages)] =
      commandsOf log ++ (cursor :: pages.map Page.cursor).map (hscanCommand rdb pattern)
  | [], cursor, log => by simp [scanLog, cursorAfter]
  | p :: ps, cursor, log => by
    simp only [scanLog, cursorAfter]
    rw [commandsOf_scanLog rdb pattern c ps p.cursor, commandsOf_command]
    simp

/-- An adapter with a persistent connection or a pool runs the body of the
operation on a connection, from a world with the same server state and the
same commands so far; the call ends as the body ends. -/
theorem withConn_usable {σ α : Type} (B : Backend σ) (rdb : RedisDB) (onErr : GoError → α)
    (body : ConnId → World σ → World σ × Outcome α) (w : World σ) (h : rdb.usable) :
    ∃ c w0, c = rdb.conn.getD w.nextConn ∧ w0.state = w.state ∧
      commandsOf w0.log = commandsOf w.log ∧
      (withConn B rdb onErr body w).2 = (body c w0).2 ∧
      (withConn B rdb onErr body w).1.state = (body c w0).1.state ∧
      commandsOf (withConn B rdb onErr body w).1.log = commandsOf (body c w0).1.log := by
  cases hc : rdb.conn with
  | some c =>
    exact ⟨c, w, rfl, rfl, rfl, by rw [withConn_conn B rdb onErr body w c hc],
      by rw [withConn_conn B rdb onErr body w c hc],
      by rw [withConn_conn B rdb onErr body w c hc]⟩
  | none =>
    cases hp : rdb.pool with
    | none =>
      rcases h with h | h
      · exact absurd hc h
      · exact absurd hp h
    | some p =>
      refine ⟨w.nextConn, ⟨w.state, w.nextConn + 1, .poolGet p w.nextConn :: w.log⟩, rfl, rfl,
        commandsOf_poolGet p w.nextConn w.log, ?_, ?_, ?_⟩
      · rw [withConn_pool B rdb onErr body w p hc hp]
      · rw [withConn_pool B rdb onErr body w p hc hp]
      · rw [withConn_pool B rdb onErr body w p hc hp]
        exact commandsOf_closing _ _ _

/-! ## Maps -/

theorem lookup_filter_ne {α β : Type} [BEq α] [LawfulBEq α] (k k1 : α) :
    ∀ (m : List (α × β)),
    List.lookup k (m.filter (fun p => p.1 != k1)) =
      if (k == k1) = true then none else List.lookup k m
  | [] => by simp
  | (a, b) :: rest => by
    have ih := lookup_filter_ne k k1 rest
    by_cases h1 : (a == k1) = true
    · have h1e : a = k1 := eq_of_beq h1
      subst h1e
      have hf : (a != a) = false := by simp
      rw [List.filter_cons]
      simp only [hf, Bool.false_eq_true, if_false, ih, List.lookup_cons]
      by_cases h2 : (k == a) = true
      · simp [h2]
      · have h3 : (k == a) = false := by simpa using h2
        simp [h3]
    · have h4 : (a != k1) = true := by simpa [bne] using h1
      rw [List.filter_cons]
      simp only [h4, if_true, List.lookup_cons, ih]
      by_cases h2 : (k == a) = true
      · have hka : k = a := eq_of_beq h2
        subst hka
        simp [h1]
      · have h3 : (k == a) = false := by simpa using h2
        simp [h3]

theorem mapGet_mapPut (m : GoMap) (k1 v k : String) :
    mapGet (mapPut m k1 v) k = if k = k1 then some v else mapGet m k := by
  by_cases h : k = k1
  · subst h
    simp [mapGet, mapPut]
  · have h3 : (k == k1) = false := by simpa using h
    unfold mapGet mapPut
    rw [List.lookup_cons, h3, lookup_filter_ne]
    simp [h]

theorem putAll_append (m : GoMap) (a b : List (String × String)) :
    putAll m (a ++ b) = putAll (putAll m a) b := by
  simp [putAll, List.foldl_append]

theorem mapGet_putAll (k : String) : ∀ (ps : List (String × String)) (m : GoMap),
    mapGet (putAll m ps) k = (List.lookup k ps.reverse).or (mapGet m k)
  | [], m => by simp [putAll]
  | (a, b) :: ps, m => by
    have ih := mapGet_putAll k ps (mapPut m a b)
    have hstep : putAll m ((a, b) :: ps) = putAll (mapPut m a b) ps := rfl
    rw [hstep, ih, mapGet_mapPut, List.reverse_cons, List.lookup_append]
    by_cases h : k = a
    · subst h
      cases List.lookup k ps.reverse <;> simp
    · have h3 : (k == a) = false := by simpa using h
      cases List.lookup k ps.reverse <;> simp [h, List.lookup_cons, h3]

theorem mergePages_eq_putAll : ∀ (pages : List Page) (m : GoMap),
    mergePages m pages = putAll m (occurrences pages)
  | [], m => rfl
  | p :: ps, m => by
    have ih := mergePages_eq_putAll ps (putAll m (pairsAt p.fields))
    have hstep : mergePages m (p :: ps) = mergePages (putAll m (pairsAt p.fields)) ps := rfl
    rw [hstep, ih]
    simp [occurrences, putAll_append]

/-- The merge of pages into an empty map holds, for every key, the value of
the key's last occurrence, and nothing for a key that does not occur. -/
theorem mapGet_mergePages (pages : List Page) (k : String) :
    mapGet (mergePages [] pages) k = List.lookup k (occurrences pages).reverse := by
  rw [mergePages_eq_putAll, mapGet_putAll]
  cases List.lookup k (occurrences pages).reverse <;> simp [mapGet]

/-! ## Whole scans -/

theorem pageScript_append (pages : List Page) (last : Page)
    (rest : List (Reply × Option GoError)) :
    pageScript (pages ++ [last]) ++ rest = pageScript pages ++ (last.reply, none) :: rest := by
  simp [pageScript]

theorem mergePages_append (m : GoMap) (pages : List Page) (last : Page) :
    mergePages m (pages ++ [last]) = putAll (mergePages m pages) (pairsOf last.fields) := by
  simp [mergePages, List.foldl_append, pairsAt_eq_pairsOf]

/-- The scan loop over pages that ask to go on, followed by a page with
cursor 0: one HSCAN per page, then the merge of all the pages is returned. -/
theorem scanLoop_full (rdb : RedisDB) (pattern : String) (c : ConnId) (pages : List Page)
    (last : Page) (extra : Nat) (cursor : Int) (keys : List String) (matched : GoMap)
    (w : World (List (Reply × Option GoError))) (rest : List (Reply × Option GoError))
    (hpages : ∀ p ∈ pages, p.wellFormed ∧ p.cursor ≠ 0)
    (hlast : last.wellFormed ∧ last.cursor = 0)
    (hst : w.state = pageScript (pages ++ [last]) ++ rest) :
    scanLoop scripted rdb pattern c ((pages ++ [last]).length + extra) cursor keys matched w =
      (⟨rest, w.nextConn,
        .command c (hscanCommand rdb pattern (cursorAfter cursor pages)) last.reply none ::
          scanLog rdb pattern c cursor pages w.log⟩,
        .returned (some (mergePages matched (pages ++ [last])), none)) := by
  have hlen : (pages ++ [last]).length + extra = pages.length + (extra + 1) := by
    simp only [List.length_append, List.length_singleton]
    omega
  rw [pageScript_append] at hst
  rw [hlen, scanLoop_pages rdb pattern c pages (extra + 1) cursor keys matched w _ hpages hst,
    scanLoop_page scripted rdb pattern c extra (cursorAfter cursor pages) (keysAfter keys pages)
      (mergePages matched pages)
      ⟨(last.reply, none) :: rest, w.nextConn, scanLog rdb pattern c cursor pages w.log⟩
      last rest rfl hlast.1.1]
  simp [hlast.1.2, hlast.2, mergePages_append]

/-- A reply that ends the loop in `redis.Values` or right after it: the
helper gives the error `err` (a reply it refuses), or it gives a nil or empty
slice; the loop stops at once with the matches so far and `err`. -/
theorem scanLoop_stop_reply {σ : Type} (B : Backend σ) (rdb : RedisDB) (pattern : String)
    (c : ConnId) (budget : Nat) (cursor : Int) (keys : List String) (matched : GoMap)
    (w : World σ) (s1 : σ) (r : Reply) (items : Option (List Reply)) (err : Option GoError)
    (hexec : B.exec w.state c (hscanCommand rdb pattern cursor) = (s1, (r, none)))
    (hval : redisValues (r, none) = (items, err))
    (hstop : err ≠ none ∨ items = none ∨ items = some []) :
    scanLoop B rdb pattern c (budget + 1) cursor keys matched w =
      (⟨s1, w.nextConn, .command c (hscanCommand rdb pattern cursor) r none :: w.log⟩,
        .returned (some matched, err)) := by
  have hexec2 : B.exec w.state c ⟨"HSCAN", [.str rdb.ns.String, .int cursor, .str "MATCH",
      .str pattern]⟩ = (s1, (r, none)) := hexec
  cases err with
  | some e => simp [scanLoop, doCmd, hexec2, hval, hscanCommand]
  | none =>
    rcases hstop with h | h | h
    · exact absurd rfl h
    · subst h
      simp [scanLoop, doCmd, hexec2, hval, hscanCommand]
    · subst h
      simp [scanLoop, doCmd, hexec2, hval, hscanCommand]

/-- The scan loop over pages that ask to go on, followed by a reply that
ends the loop in `redis.Values` or right after it. -/
theorem scanLoop_stop (rdb : RedisDB) (pattern : String) (c : ConnId) (pages : List Page)
    (r : Reply) (items : Option (List Reply)) (err : Option GoError) (extra : Nat)
    (cursor : Int) (keys : List String)
    (matched : GoMap) (w : World (List (Reply × Option GoError)))
    (rest : List (Reply × Option GoError))
    (hpages : ∀ p ∈ pages, p.wellFormed ∧ p.cursor ≠ 0)
    (hval : redisValues (r, none) = (items, err))
    (hstop : err ≠ none ∨ items = none ∨ items = some [])
    (hst : w.state = pageScript pages ++ (r, none) :: rest) :
    scanLoop scripted rdb pattern c (pages.length + (extra + 1)) cursor keys matched w =
      (⟨rest, w.nextConn,
        .command c (hscanCommand rdb pattern (cursorAfter cursor pages)) r none ::
          scanLog rdb pattern c cursor pages w.log⟩,
        .returned (some (mergePages matched pages), err)) := by
  rw [scanLoop_pages rdb pattern c pages (extra + 1) cursor keys matched w _ hpages hst,
    scanLoop_stop_reply scripted rdb pattern c extra (cursorAfter cursor pages)
      (keysAfter keys pages) (mergePages matched pages)
      ⟨(r, none) :: rest, w.nextConn, scanLog rdb pattern c cursor pages w.log⟩
      rest r items err rfl hval hstop]

/-- The commands of a whole scan: the first HSCAN with the start cursor,
each later one with the cursor of the page before it. -/
theorem commandsOf_scan (rdb : RedisDB) (pattern : String) (c : ConnId) (pages : List Page)
    (cursor : Int) (r : Reply) (err : Option GoError) (log : List Event) :
    commandsOf (.command c (hscanCommand rdb pattern (cursorAfter cursor pages)) r err ::
        scanLog rdb pattern c cursor pages log) =
      commandsOf log ++ (cursor :: pages.map Page.cursor).map (hscanCommand rdb pattern) := by
  rw [commandsOf_command, commandsOf_scanLog]

/-- A whole scan by an adapter that holds a connection or a pool, answered
by the script with pages that ask to go on and a last page with cursor 0. -/
theorem readAllMatching_pages (rdb : RedisDB) (pattern : String) (pages : List Page)
    (last : Page) (rest : List (Reply × Option GoError)) (extra n0 : Nat)
    (husable : rdb.usable)
    (hpages : ∀ p ∈ pages, p.wellFormed ∧ p.cursor ≠ 0)
    (hlast : last.wellFormed ∧ last.cursor = 0) :
    (ReadAllMatchingEntries scripted rdb pattern ((pages ++ [last]).length + extra)
        (World.start (pageScript (pages ++ [last]) ++ rest) n0)).2 =
      .returned (some (mergePages [] (pages ++ [last])), none) ∧
    commandsOf (ReadAllMatchingEntries scripted rdb pattern ((pages ++ [last]).length + extra)
        (World.start (pageScript (pages ++ [last]) ++ rest) n0)).1.log =
      (0 :: pages.map Page.cursor).map (hscanCommand rdb pattern) ∧
    (ReadAllMatchingEntries scripted rdb pattern ((pages ++ [last]).length + extra)
        (World.start (pageScript (pages ++ [last]) ++ rest) n0)).1.state = rest := by
  obtain ⟨c, w0, _, hst, hcmds, hout, hstate, hlog⟩ :=
    withConn_usable scripted rdb (fun err => ((none : Option GoMap), some err))
      (fun c w1 => scanLoop scripted rdb pattern c ((pages ++ [last]).length + extra) 0 [] [] w1)
      (World.start (pageScript (pages ++ [last]) ++ rest) n0) husable
  have hrun := scanLoop_full rdb pattern c pages last extra 0 [] [] w0 rest hpages hlast hst
  simp only [hrun] at hout hstate hlog
  refine ⟨hout, ?_, hstate⟩
  unfold ReadAllMatchingEntries
  rw [hlog, commandsOf_scan, hcmds]
  simp [World.start, commandsOf]

/-- A whole scan that ends on a reply that stops the loop in `redis.Values`
or right after it. -/
theorem readAllMatching_stop (rdb : RedisDB) (pattern : String) (pages : List Page)
    (r : Reply) (items : Option (List Reply)) (err : Option GoError)
    (rest : List (Reply × Option GoError))
    (extra n0 : Nat) (husable : rdb.usable)
    (hpages : ∀ p ∈ pages, p.wellFormed ∧ p.cursor ≠ 0)
    (hval : redisValues (r, none) = (items, err))
    (hstop : err ≠ none ∨ items = none ∨ items = some []) :
    (ReadAllMatchingEntries scripted rdb pattern (pages.length + (extra + 1))
        (World.start (pageScript pages ++ (r, none) :: rest) n0)).2 =
      .returned (some (mergePages [] pages), err) ∧
    commandsOf (ReadAllMatchingEntries scripted rdb pattern (pages.length + (extra + 1))
        (World.start (pageScript pages ++ (r, none) :: rest) n0)).1.log =
      (0 :: pages.map Page.cursor).map (hscanCommand rdb pattern) ∧
    (ReadAllMatchingEntries scripted rdb pattern (pages.length + (extra + 1))
        (World.start (pageScript pages ++ (r, none) :: rest) n0)).1.state = rest := by
  obtain ⟨c, w0, _, hst, hcmds, hout, hstate, hlog⟩ :=
    withConn_usable scripted rdb (fun err => ((none : Option GoMap), some err))
      (fun c w1 => scanLoop scripted rdb pattern c (pages.length + (extra + 1)) 0 [] [] w1)
      (World.start (pageScript pages ++ (r, none) :: rest) n0) husable
  have hrun := scanLoop_stop rdb pattern c pages r items err extra 0 [] [] w0 rest hpages hval
    hstop hst
  simp only [hrun] at hout hstate hlog
  refine ⟨hout, ?_, hstate⟩
  unfold ReadAllMatchingEntries
  rw [hlog, commandsOf_scan, hcmds]
  simp [World.start, commandsOf]

/-- An untyped nil reply is not a nil page: `redis.Values` turns it into
`ErrNil`, so the loop stops with the matches so far and that error. -/
theorem scanLoop_nil_reply {σ : Type} (B : Backend σ) (rdb : RedisDB) (pattern : String)
    (c : ConnId) (budget : Nat) (cursor : Int) (keys : List String) (matched : GoMap)
    (w : World σ) (s1 : σ)
    (hexec : B.exec w.state c (hscanCommand rdb pattern cursor) = (s1, (.nil, none))) :
    scanLoop B rdb pattern c (budget + 1) cursor keys matched w =
      (⟨s1, w.nextConn, .command c (hscanCommand rdb pattern cursor) .nil none :: w.log⟩,
        .returned (some matched, some .errNil)) := by
  have hexec2 : B.exec w.state c ⟨"HSCAN", [.str rdb.ns.String, .int cursor, .str "MATCH",
      .str pattern]⟩ = (s1, (.nil, none)) := hexec
  simp [scanLoop, doCmd, hexec2, redisValues, hscanCommand]

/-! ## Claims on the matching scan -/

/-- C1: what the code does on a scan page whose flat list has an odd number
of elements, in any pass of the loop and with any server: the guard
`i+1 > len(keys)` never holds, the loop reads `keys[len(keys)]` and the call
panics with an index out of range instead of dropping the last element. -/
theorem odd_page_panics {σ : Type} (B : Backend σ) (rdb : RedisDB) (pattern : String)
    (c : ConnId) (budget : Nat) (cursor : Int) (keys : List String) (matched : GoMap)
    (w : World σ) (p : Page) (s1 : σ)
    (hexec : B.exec w.state c (hscanCommand rdb pattern cursor) = (s1, (p.reply, none)))
    (hcur : (parseInt p.cursorText 64).2 = none)
    (hodd : p.fields.length % 2 = 1) :
    scanLoop B rdb pattern c (budget + 1) cursor keys matched w =
      (⟨s1, w.nextConn, .command c (hscanCommand rdb pattern cursor) p.reply none :: w.log⟩,
        .panicked .indexOutOfRange) := by
  rw [scanLoop_page B rdb pattern c budget cursor keys matched w p s1 hexec hcur]
  have hne : ¬ (p.fields.length % 2 = 0) := by omega
  simp [hne]

/-- C1, at a page with the three elements k1, v1, k2. -/
theorem odd_page_panics_witness :
    (Page.mk "0" ["k1", "v1", "k2"]).fields.length % 2 = 1 ∧
    (scanLoop scripted (NewRedisDBWithConn 0 ⟨"test"⟩ "addr" "pass") "k*" 0 1 0 [] []
        (World.start [((Page.mk "0" ["k1", "v1", "k2"]).reply, none)] 1)).2 =
      .panicked .indexOutOfRange :=
  ⟨by decide,
    congrArg Prod.snd
      (odd_page_panics scripted (NewRedisDBWithConn 0 ⟨"test"⟩ "addr" "pass") "k*" 0 0 0 [] []
        (World.start [((Page.mk "0" ["k1", "v1", "k2"]).reply, none)] 1)
        (Page.mk "0" ["k1", "v1", "k2"]) [] rfl (by decide) (by decide))⟩

/-- The whole operation on a page with three elements: the call panics, on
an adapter with a persistent connection and on one with a pool (where the
deferred `Close` still runs). -/
theorem ReadAllMatchingEntries_odd_page :
    (ReadAllMatchingEntries scripted (NewRedisDBWithConn 0 ⟨"test"⟩ "addr" "pass") "k*" 5
        (World.start [((Page.mk "0" ["k1", "v1", "k2"]).reply, none)] 1)).2 =
      .panicked .indexOutOfRange ∧
    (ReadAllMatchingEntries scripted (NewRedisDBWithPool ⟨"test"⟩ 0) "k*" 5
        (World.start [((Page.mk "0" ["k1", "v1", "k2"]).reply, none)] 1)).2 =
      .panicked .indexOutOfRange := by
  decide

/-- C2: what the code does for an adapter built from an address and a
credential (no persistent connection, no pool) once the dial and the AUTH
have both succeeded: `connect` returns a nil connection with a nil error, so
every operation panics on `defer conn.Close()` before it issues its command,
and the dialed connection is never closed. -/
theorem direct_adapter_gets_nil_connection {σ : Type} (B : Backend σ) (rdb : RedisDB)
    (call : Call) (w : World σ) (s1 s2 : σ) (r : Reply)
    (hc : rdb.conn = none) (hp : rdb.pool = none)
    (hd : B.dial w.state "tcp" rdb.address = (s1, none))
    (ha : B.exec s1 w.nextConn ⟨"AUTH", [.str rdb.password]⟩ = (s2, (r, none))) :
    (connect B rdb w).2 = (none, none) ∧
    (runCall B rdb call w).2 = .panicked .nilDereference ∧
    (runCall B rdb call w).1.log =
      .command w.nextConn ⟨"AUTH", [.str rdb.password]⟩ r none ::
        .dial rdb.address (some w.nextConn) none :: w.log := by
  refine ⟨?_, ?_, ?_⟩
  · simp [connect, hp, hd, doCmd, ha]
  · rw [runCall_eq, withConn_direct_panics B rdb w some _ s1 s2 r hc hp hd ha]
  · rw [runCall_eq, withConn_direct_panics B rdb w some _ s1 s2 r hc hp hd ha]

/-- C2, at the adapter `NewRedisDB "test" "addr" "pass"` reading `key1` from
a server that accepts the dial and the AUTH. -/
theorem direct_adapter_gets_nil_connection_witness :
    (connect scripted (NewRedisDB ⟨"test"⟩ "addr" "pass")
        (World.start [(Reply.status "OK", none), (Reply.bulk "value1", none)] 0)).2 =
      (none, none) ∧
    (runCall scripted (NewRedisDB ⟨"test"⟩ "addr" "pass") (.readEntry "key1")
        (World.start [(Reply.status "OK", none), (Reply.bulk "value1", none)] 0)).2 =
      .panicked .nilDereference ∧
    (runCall scripted (NewRedisDB ⟨"test"⟩ "addr" "pass") (.readEntry "key1")
        (World.start [(Reply.status "OK", none), (Reply.bulk "value1", none)] 0)).1.log =
      [.command 0 ⟨"AUTH", [.str "pass"]⟩ (.status "OK") none, .dial "addr" (some 0) none] :=
  direct_adapter_gets_nil_connection scripted (NewRedisDB ⟨"test"⟩ "addr" "pass")
    (.readEntry "key1") (World.start [(Reply.status "OK", none), (Reply.bulk "value1", none)] 0)
    [(Reply.status "OK", none), (Reply.bulk "value1", none)] [(Reply.bulk "value1", none)]
    (.status "OK") rfl rfl rfl rfl

/-- The operation itself on that adapter: `ReadEntry` panics and returns
nothing, although the server would have answered `value1`. -/
theorem ReadEntry_direct_panics :
    (ReadEntry scripted (NewRedisDB ⟨"test"⟩ "addr" "pass") "key1"
        (World.start [(Reply.status "OK", none), (Reply.bulk "value1", none)] 0)).2 =
      .panicked .nilDereference ∧
    commandsOf (ReadEntry scripted (NewRedisDB ⟨"test"⟩ "addr" "pass") "key1"
        (World.start [(Reply.status "OK", none), (Reply.bulk "value1", none)] 0)).1.log =
      [⟨"AUTH", [.str "pass"]⟩] := by
  decide

/-- C4: for every sequence of well-formed pages with flat lists of even
length (cursors not zero, then a last page with cursor 0), answered to an
adapter that holds a connection or a pool, `ReadAllMatchingEntries` returns a
map with a nil error; for every key the map holds the element that follows the
key's last occurrence at an even position, and nothing for a key at no even
position; for one page that holds one pair the map is that one entry. -/
theorem matching_entries_map (rdb : RedisDB) (pattern : String) (pages : List Page)
    (last : Page) (rest : List (Reply × Option GoError)) (extra n0 : Nat)
    (husable : rdb.usable)
    (hpages : ∀ p ∈ pages, p.wellFormed ∧ p.cursor ≠ 0)
    (hlast : last.wellFormed ∧ last.cursor = 0) :
    ∃ m, (ReadAllMatchingEntries scripted rdb pattern ((pages ++ [last]).length + extra)
        (World.start (pageScript (pages ++ [last]) ++ rest) n0)).2 = .returned (some m, none) ∧
      (∀ k, mapGet m k = List.lookup k (occurrences (pages ++ [last])).reverse) ∧
      (∀ key value, pages = [] → last.fields = [key, value] → m = [(key, value)]) := by
  refine ⟨mergePages [] (pages ++ [last]),
    (readAllMatching_pages rdb pattern pages last rest extra n0 husable hpages hlast).1,
    fun k => mapGet_mergePages _ k, ?_⟩
  intro key value hnil hfields
  subst hnil
  simp [mergePages, hfields, pairsAt_eq_pairsOf, pairsOf, putAll, mapPut]

/-- C4, at the page of the test `TestRedisDBReadAllMatchingEntries`: one
pair, cursor 0. -/
theorem matching_entries_map_witness :
    ∃ m, (ReadAllMatchingEntries scripted (NewRedisDBWithConn 0 ⟨"test"⟩ "addr" "pass")
        "inst-id" (([] ++ [Page.mk "0" ["inst-id", "json"]]).length + 0)
        (World.start (pageScript ([] ++ [Page.mk "0" ["inst-id", "json"]]) ++ []) 1)).2 =
        .returned (some m, none) ∧
      (∀ k, mapGet m k =
        List.lookup k (occurrences ([] ++ [Page.mk "0" ["inst-id", "json"]])).reverse) ∧
      (∀ key value, ([] : List Page) = [] → (Page.mk "0" ["inst-id", "json"]).fields =
        [key, value] → m = [(key, value)]) :=
  matching_entries_map (NewRedisDBWithConn 0 ⟨"test"⟩ "addr" "pass") "inst-id" []
    (Page.mk "0" ["inst-id", "json"]) [] 0 1 (Or.inl (by decide))
    (fun p hp => absurd hp (List.not_mem_nil p)) (by decide)

/-- C5: for every sequence of n well-formed pages whose cursors are not
zero except the last, which is 0, answered to an adapter that holds a
connection or a pool, `ReadAllMatchingEntries` (with a budget of at least n
pages) issues exactly n HSCAN commands, the first with cursor 0 and each later
one with the cursor of the page before it, takes nothing more from the server,
and returns the merge of the n pages with a nil error. -/
theorem scan_follows_cursor (rdb : RedisDB) (pattern : String) (pages : List Page)
    (last : Page) (rest : List (Reply × Option GoError)) (extra n0 : Nat)
    (husable : rdb.usable)
    (hpages : ∀ p ∈ pages, p.wellFormed ∧ p.cursor ≠ 0)
    (hlast : last.wellFormed ∧ last.cursor = 0) :
    (ReadAllMatchingEntries scripted rdb pattern ((pages ++ [last]).length + extra)
        (World.start (pageScript (pages ++ [last]) ++ rest) n0)).2 =
      .returned (some (mergePages [] (pages ++ [last])), none) ∧
    commandsOf (ReadAllMatchingEntries scripted rdb pattern ((pages ++ [last]).length + extra)
        (World.start (pageScript (pages ++ [last]) ++ rest) n0)).1.log =
      (0 :: pages.map Page.cursor).map (hscanCommand rdb pattern) ∧
    (ReadAllMatchingEntries scripted rdb pattern ((pages ++ [last]).length + extra)
        (World.start (pageScript (pages ++ [last]) ++ rest) n0)).1.state = rest :=
  readAllMatching_pages rdb pattern pages last rest extra n0 husable hpages hlast

/-- C5, at two pages with cursors 17 and 0 and an adapter with a pool. -/
theorem scan_follows_cursor_witness :
    (ReadAllMatchingEntries scripted (NewRedisDBWithPool ⟨"test"⟩ 0) "*"
        (([Page.mk "17" ["a", "1"]] ++ [Page.mk "0" ["b", "2"]]).length + 0)
        (World.start (pageScript ([Page.mk "17" ["a", "1"]] ++ [Page.mk "0" ["b", "2"]]) ++
          [(Reply.nil, none)]) 0)).2 =
      .returned (some [("b", "2"), ("a", "1")], none) ∧
    commandsOf (ReadAllMatchingEntries scripted (NewRedisDBWithPool ⟨"test"⟩ 0) "*"
        (([Page.mk "17" ["a", "1"]] ++ [Page.mk "0" ["b", "2"]]).length + 0)
        (World.start (pageScript ([Page.mk "17" ["a", "1"]] ++ [Page.mk "0" ["b", "2"]]) ++
          [(Reply.nil, none)]) 0)).1.log =
      [⟨"HSCAN", [.str "test", .int 0, .str "MATCH", .str "*"]⟩,
       ⟨"HSCAN", [.str "test", .int 17, .str "MATCH", .str "*"]⟩] ∧
    (ReadAllMatchingEntries scripted (NewRedisDBWithPool ⟨"test"⟩ 0) "*"
        (([Page.mk "17" ["a", "1"]] ++ [Page.mk "0" ["b", "2"]]).length + 0)
        (World.start (pageScript ([Page.mk "17" ["a", "1"]] ++ [Page.mk "0" ["b", "2"]]) ++
          [(Reply.nil, none)]) 0)).1.state = [(Reply.nil, none)] :=
  scan_follows_cursor (NewRedisDBWithPool ⟨"test"⟩ 0) "*" [Page.mk "17" ["a", "1"]]
    (Page.mk "0" ["b", "2"]) [(Reply.nil, none)] 0 0 (Or.inr (by decide))
    (fun p hp => by
      rw [List.mem_singleton] at hp
      subst hp
      decide)
    (by decide)

/-- C6, as amended: when, after any number of pages that asked to go on,
an HSCAN reply comes with a nil error and is an empty array, a nil slice or a
plain nil, the loop stops at once: that HSCAN is the last command and nothing
more is taken from the server.  For the empty array and the nil slice the call
returns the merge of the earlier pages with a nil error; for the plain nil it
returns the same merge with `redis.ErrNil`, the error `redis.Values` makes of a
nil reply.  With no earlier page the map returned is the empty map, not nil. -/
theorem empty_or_nil_page_stops (rdb : RedisDB) (pattern : String) (pages : List Page)
    (r : Reply) (rest : List (Reply × Option GoError))
    (extra n0 : Nat) (husable : rdb.usable)
    (hpages : ∀ p ∈ pages, p.wellFormed ∧ p.cursor ≠ 0)
    (hr : r = .array [] ∨ r = .nilArray ∨ r = .nil) :
    (r = .array [] ∨ r = .nilArray →
      (ReadAllMatchingEntries scripted rdb pattern (pages.length + (extra + 1))
        (World.start (pageScript pages ++ (r, none) :: rest) n0)).2 =
      .returned (some (mergePages [] pages), none)) ∧
    (r = .nil →
      (ReadAllMatchingEntries scripted rdb pattern (pages.length + (extra + 1))
        (World.start (pageScript pages ++ (r, none) :: rest) n0)).2 =
      .returned (some (mergePages [] pages), some .errNil)) ∧
    commandsOf (ReadAllMatchingEntries scripted rdb pattern (pages.length + (extra + 1))
        (World.start (pageScript pages ++ (r, none) :: rest) n0)).1.log =
      (0 :: pages.map Page.cursor).map (hscanCommand rdb pattern) ∧
    (ReadAllMatchingEntries scripted rdb pattern (pages.length + (extra + 1))
        (World.start (pageScript pages ++ (r, none) :: rest) n0)).1.state = rest ∧
    (pages = [] → ∃ err,
      (ReadAllMatchingEntries scripted rdb pattern (pages.length + (extra + 1))
        (World.start (pageScript pages ++ (r, none) :: rest) n0)).2 =
      .returned (some [], err)) := by
  rcases hr with h | h | h
  · subst h
    obtain ⟨h1, h2, h3⟩ := readAllMatching_stop rdb pattern pages (.array []) (some []) none
      rest extra n0 husable hpages rfl (Or.inr (Or.inr rfl))
    refine ⟨fun _ => h1, fun hn => Reply.noConfusion hn, h2, h3, fun hp => ⟨none, ?_⟩⟩
    rw [h1, hp]
    rfl
  · subst h
    obtain ⟨h1, h2, h3⟩ := readAllMatching_stop rdb pattern pages .nilArray none none
      rest extra n0 husable hpages rfl (Or.inr (Or.inl rfl))
    refine ⟨fun _ => h1, fun hn => Reply.noConfusion hn, h2, h3, fun hp => ⟨none, ?_⟩⟩
    rw [h1, hp]
    rfl
  · subst h
    obtain ⟨h1, h2, h3⟩ := readAllMatching_stop rdb pattern pages .nil none (some .errNil)
      rest extra n0 husable hpages rfl (Or.inl (by simp))
    refine ⟨fun hn => ?_, fun _ => h1, h2, h3, fun hp => ⟨some .errNil, ?_⟩⟩
    · rcases hn with hn | hn <;> cases hn
    · rw [h1, hp]
      rfl

/-- C6 as amended, at one page with cursor 5 followed by an empty array,
with a second page left unread on the server. -/
theorem empty_or_nil_page_stops_witness :
    (Reply.array [] = .array [] ∨ Reply.array [] = .nilArray ∨ Reply.array [] = .nil) ∧
    (ReadAllMatchingEntries scripted (NewRedisDBWithConn 0 ⟨"test"⟩ "addr" "pass") "*"
        ([Page.mk "5" ["a", "1"]].length + (0 + 1))
        (World.start (pageScript [Page.mk "5" ["a", "1"]] ++
          (Reply.array [], none) :: [((Page.mk "0" ["b", "2"]).reply, none)]) 1)).2 =
      .returned (some [("a", "1")], none) ∧
    commandsOf (ReadAllMatchingEntries scripted (NewRedisDBWithConn 0 ⟨"test"⟩ "addr" "pass")
        "*" ([Page.mk "5" ["a", "1"]].length + (0 + 1))
        (World.start (pageScript [Page.mk "5" ["a", "1"]] ++
          (Reply.array [], none) :: [((Page.mk "0" ["b", "2"]).reply, none)]) 1)).1.log =
      [⟨"HSCAN", [.str "test", .int 0, .str "MATCH", .str "*"]⟩,
       ⟨"HSCAN", [.str "test", .int 5, .str "MATCH", .str "*"]⟩] :=
  ⟨Or.inl rfl,
   (empty_or_nil_page_stops (NewRedisDBWithConn 0 ⟨"test"⟩ "addr" "pass") "*"
      [Page.mk "5" ["a", "1"]] (.array []) [((Page.mk "0" ["b", "2"]).reply, none)] 0 1
      (Or.inl (by decide))
      (fun p hp => by
        rw [List.mem_singleton] at hp
        subst hp
        decide)
      (Or.inl rfl)).1 (Or.inl rfl),
   (empty_or_nil_page_stops (NewRedisDBWithConn 0 ⟨"test"⟩ "addr" "pass") "*"
      [Page.mk "5" ["a", "1"]] (.array []) [((Page.mk "0" ["b", "2"]).reply, none)] 0 1
      (Or.inl (by decide))
      (fun p hp => by
        rw [List.mem_singleton] at hp
        subst hp
        decide)
      (Or.inl rfl)).2.2.1⟩

/-- C6 as first stated fails on a plain nil reply with a nil error: after
one page with cursor 5, the nil reply makes `ReadAllMatchingEntries` return
the matches so far together with `redis.ErrNil`, not with a nil error. -/
theorem nil_reply_returns_ErrNil :
    (ReadAllMatchingEntries scripted (NewRedisDBWithConn 0 ⟨"test"⟩ "addr" "pass") "*" 3
        (World.start (pageScript [Page.mk "5" ["a", "1"]] ++ [(Reply.nil, none)]) 1)).2 =
      .returned (some [("a", "1")], some .errNil) ∧
    (ReadAllMatchingEntries scripted (NewRedisDBWithConn 0 ⟨"test"⟩ "addr" "pass") "*" 3
        (World.start (pageScript [Page.mk "5" ["a", "1"]] ++ [(Reply.nil, none)]) 1)).2 ≠
      .returned (some [("a", "1")], none) := by
  decide

/-- A nil element inside the flat list of a page makes `redis.Scan` panic,
and with it the call. -/
theorem ReadAllMatchingEntries_nil_element :
    (ReadAllMatchingEntries scripted (NewRedisDBWithConn 0 ⟨"test"⟩ "addr" "pass") "*" 3
        (World.start [(Reply.array [.bulk "0", .array [.bulk "k1", .nil]], none)] 1)).2 =
      .panicked .nilDereference := by
  decide

/-! ## The reference store -/

theorem storeGet_storeSet (st : Store) (ns f v g : String) :
    storeGet (storeSet st ns f v) ns g = if g = f then some v else storeGet st ns g := by
  by_cases h : g = f
  · subst h
    simp [storeGet, storeSet]
  · have h3 : ((ns, g) == (ns, f)) = false := by simpa using h
    have h4 : ¬ ((ns, g) = (ns, f)) := by simpa using h
    unfold storeGet storeSet storeDel
    rw [List.lookup_cons, h3, lookup_filter_ne]
    simp [h]

theorem storeGet_storeDel (st : Store) (ns f g : String) :
    storeGet (storeDel st ns f) ns g = if g = f then none else storeGet st ns g := by
  unfold storeGet storeDel
  rw [lookup_filter_ne]
  by_cases h : g = f
  · subst h
    simp
  · simp [h]

theorem refExec_hset (glob : String → String → Bool) (st : Store) (ns f v : String) :
    refExec glob st ⟨"HSET", [.str ns, .str f, .str v]⟩ =
      (storeSet st ns f v, (.int (if (storeGet st ns f).isSome then 0 else 1), none)) := rfl

theorem refExec_hget (glob : String → String → Bool) (st : Store) (ns f : String) :
    refExec glob st ⟨"HGET", [.str ns, .str f]⟩ =
      (st, (match storeGet st ns f with
            | some v => .bulk v
            | none => .nil, none)) := rfl

theorem refExec_hdel (glob : String → String → Bool) (st : Store) (ns f : String) :
    refExec glob st ⟨"HDEL", [.str ns, .str f]⟩ =
      (storeDel st ns f, (.int (if (storeGet st ns f).isSome then 1 else 0), none)) := rfl

theorem refExec_hkeys (glob : String → String → Bool) (st : Store) (ns : String) :
    (refExec glob st ⟨"HKEYS", [.str ns]⟩).1 = st := rfl

theorem refExec_hgetall (glob : String → String → Bool) (st : Store) (ns : String) :
    (refExec glob st ⟨"HGETALL", [.str ns]⟩).1 = st := rfl

theorem refExec_hscan (glob : String → String → Bool) (st : Store) (ns pattern : String)
    (cursor : Int) :
    (refExec glob st ⟨"HSCAN", [.str ns, .int cursor, .str "MATCH", .str pattern]⟩).1 = st := rfl

theorem refExec_auth (glob : String → String → Bool) (st : Store) (pw : String) :
    refExec glob st ⟨"AUTH", [.str pw]⟩ = (st, (.status "OK", none)) := rfl

theorem scanLoop_state_ref (glob : String → String → Bool) (rdb : RedisDB) (pattern : String)
    (c : ConnId) : ∀ (budget : Nat) (cursor : Int) (keys : List String) (matched : GoMap)
    (w : World Store),
    (scanLoop (refBackend glob) rdb pattern c budget cursor keys matched w).1.state = w.state
  | 0, _, _, _, _ => rfl
  | budget + 1, cursor, keys, matched, w => by
    have hw1 : (doCmd (refBackend glob) c (hscanCommand rdb pattern cursor) w).1.state =
        w.state := rfl
    rcases scanLoop_step (refBackend glob) rdb pattern c budget cursor keys matched w with
      ⟨out, h, _⟩ | ⟨_, cursor1, keys1, matched1, h⟩
    · rw [h]
      exact hw1
    · rw [h, scanLoop_state_ref glob rdb pattern c budget cursor1 keys1 matched1]
      exact hw1

/-- A call that neither inserts nor deletes the key `k` leaves the value of
`k` in the reference store as it was. -/
theorem callBody_state_ref (glob : String → String → Bool) (rdb : RedisDB) (call : Call)
    (c : ConnId) (w : World Store) (k : String) (h : call.writes k = false) :
    storeGet (callBody (refBackend glob) rdb call c w).1.state rdb.ns.String k =
      storeGet w.state rdb.ns.String k := by
  cases call with
  | readKeys => rfl
  | readEntry key => rfl
  | readAllEntries => rfl
  | readAllMatchingEntries pattern budget =>
    show storeGet (scanLoop (refBackend glob) rdb pattern c budget 0 [] [] w).1.state _ _ = _
    rw [scanLoop_state_ref]
  | insertEntry key entry =>
    have hne : ¬ (k = key) := by
      intro hk
      subst hk
      simp [Call.writes] at h
    show storeGet (storeSet w.state rdb.ns.String key entry) rdb.ns.String k = _
    rw [storeGet_storeSet]
    simp [hne]
  | deleteEntry key =>
    have hne : ¬ (k = key) := by
      intro hk
      subst hk
      simp [Call.writes] at h
    show storeGet (storeDel w.state rdb.ns.String key) rdb.ns.String k = _
    rw [storeGet_storeDel]
    simp [hne]

theorem runCall_state_ref (glob : String → String → Bool) (rdb : RedisDB) (call : Call)
    (w : World Store) (k : String) (husable : rdb.usable) (h : call.writes k = false) :
    storeGet (runCall (refBackend glob) rdb call w).1.state rdb.ns.String k =
      storeGet w.state rdb.ns.String k := by
  rw [runCall_eq]
  obtain ⟨c, w0, _, hst, _, _, hstate, _⟩ :=
    withConn_usable (refBackend glob) rdb some (callBody (refBackend glob) rdb call) w husable
  rw [hstate, callBody_state_ref glob rdb call c w0 k h, hst]

theorem runCalls_state_ref (glob : String → String → Bool) (rdb : RedisDB) (k : String)
    (husable : rdb.usable) : ∀ (calls : List Call) (w : World Store),
    (∀ call ∈ calls, call.writes k = false) →
    storeGet (runCalls (refBackend glob) rdb calls w).state rdb.ns.String k =
      storeGet w.state rdb.ns.String k
  | [], _, _ => rfl
  | call :: rest, w, h => by
    simp only [runCalls]
    rw [runCalls_state_ref glob rdb k husable rest _
      (fun c hc => h c (List.mem_cons_of_mem _ hc)),
      runCall_state_ref glob rdb call w k husable (h call (List.mem_cons_self _ _))]

/-- On the reference store, an adapter with a connection or a pool reads
the value the store holds for the key, or fails with `ErrNil` when the store
holds none. -/
theorem ReadEntry_ref (glob : String → String → Bool) (rdb : RedisDB) (k : String)
    (w : World Store) (husable : rdb.usable) :
    (ReadEntry (refBackend glob) rdb k w).2 =
      match storeGet w.state rdb.ns.String k with
      | some v => .returned (v, none)
      | none => .returned ("", some .errNil) := by
  obtain ⟨c, w0, _, hst, _, hout, _, _⟩ :=
    withConn_usable (refBackend glob) rdb (fun err => ("", some err))
      (fun c w1 =>
        ((doCmd (refBackend glob) c ⟨"HGET", [.str rdb.ns.String, .str k]⟩ w1).1,
          .returned (redisString
            (doCmd (refBackend glob) c ⟨"HGET", [.str rdb.ns.String, .str k]⟩ w1).2))) w husable
  have hout2 : (ReadEntry (refBackend glob) rdb k w).2 = _ := hout
  rw [hout2]
  simp only [doCmd, refBackend, refExec_hget, hst]
  cases storeGet w.state rdb.ns.String k <;> rfl

theorem InsertEntry_ref (glob : String → String → Bool) (rdb : RedisDB) (k v : String)
    (w : World Store) (husable : rdb.usable) :
    (InsertEntry (refBackend glob) rdb k v w).2 = .returned none ∧
    (InsertEntry (refBackend glob) rdb k v w).1.state = storeSet w.state rdb.ns.String k v := by
  obtain ⟨c, w0, _, hst, _, hout, hstate, _⟩ :=
    withConn_usable (refBackend glob) rdb (fun err => some err)
      (fun c w1 =>
        ((doCmd (refBackend glob) c ⟨"HSET", [.str rdb.ns.String, .str k, .str v]⟩ w1).1,
          .returned
            (doCmd (refBackend glob) c ⟨"HSET", [.str rdb.ns.String, .str k, .str v]⟩ w1).2.2))
      w husable
  have hout2 : (InsertEntry (refBackend glob) rdb k v w).2 = _ := hout
  have hstate2 : (InsertEntry (refBackend glob) rdb k v w).1.state = _ := hstate
  rw [hout2, hstate2]
  simp [doCmd, refBackend, refExec_hset, hst]

theorem DeleteEntry_ref (glob : String → String → Bool) (rdb : RedisDB) (k : String)
    (w : World Store) (husable : rdb.usable) :
    (DeleteEntry (refBackend glob) rdb k w).2 =
      .returned (if (storeGet w.state rdb.ns.String k).isSome then 1 else 0, none) ∧
    (DeleteEntry (refBackend glob) rdb k w).1.state = storeDel w.state rdb.ns.String k := by
  obtain ⟨c, w0, _, hst, _, hout, hstate, _⟩ :=
    withConn_usable (refBackend glob) rdb (fun err => ((0 : Int), some err))
      (fun c w1 =>
        ((doCmd (refBackend glob) c ⟨"HDEL", [.str rdb.ns.String, .str k]⟩ w1).1,
          .returned (redisInt
            (doCmd (refBackend glob) c ⟨"HDEL", [.str rdb.ns.String, .str k]⟩ w1).2))) w husable
  have hout2 : (DeleteEntry (refBackend glob) rdb k w).2 = _ := hout
  have hstate2 : (DeleteEntry (refBackend glob) rdb k w).1.state = _ := hstate
  rw [hout2, hstate2]
  simp only [doCmd, refBackend, refExec_hdel, hst, and_true]
  cases storeGet w.state rdb.ns.String k <;> rfl

/-- On the reference store the dial and the AUTH succeed, so an adapter
whose `InsertEntry` returned holds a connection or a pool. -/
theorem usable_of_insert (glob : String → String → Bool) (rdb : RedisDB) (k v : String)
    (w : World Store)
    (hins : (InsertEntry (refBackend glob) rdb k v w).2 = .returned none) : rdb.usable := by
  by_contra hnot
  have hc : rdb.conn = none := by
    by_contra h
    exact hnot (Or.inl h)
  have hp : rdb.pool = none := by
    by_contra h
    exact hnot (Or.inr h)
  have hpanic := withConn_direct_panics (refBackend glob) rdb w (fun err => some err)
    (fun c w1 =>
      ((doCmd (refBackend glob) c ⟨"HSET", [.str rdb.ns.String, .str k, .str v]⟩ w1).1,
        Outcome.returned
          (doCmd (refBackend glob) c ⟨"HSET", [.str rdb.ns.String, .str k, .str v]⟩ w1).2.2))
    w.state w.state (.status "OK") hc hp rfl rfl
  have hins2 : (withConn (refBackend glob) rdb (fun err => some err)
    (fun c w1 =>
      ((doCmd (refBackend glob) c ⟨"HSET", [.str rdb.ns.String, .str k, .str v]⟩ w1).1,
        Outcome.returned
          (doCmd (refBackend glob) c ⟨"HSET", [.str rdb.ns.String, .str k, .str v]⟩ w1).2.2))
    w).2 = .returned none := hins
  rw [hpanic] at hins2
  cases hins2

/-! ## Claims on insert, read and delete -/

/-- C9: over the reference store, when `InsertEntry(k, v)` has returned a
nil error, then after any sequence of calls that neither insert nor delete
`k`, `ReadEntry(k)` returns `v` with a nil error; after a further
`InsertEntry(k, v2)` it returns `v2`, and after `DeleteEntry(k)` it fails
(with `ErrNil`). -/
theorem insert_then_read (glob : String → String → Bool) (rdb : RedisDB) (k v : String)
    (w : World Store) (calls : List Call)
    (hins : (InsertEntry (refBackend glob) rdb k v w).2 = .returned none)
    (hother : ∀ call ∈ calls, call.writes k = false) :
    (ReadEntry (refBackend glob) rdb k
        (runCalls (refBackend glob) rdb calls (InsertEntry (refBackend glob) rdb k v w).1)).2 =
      .returned (v, none) ∧
    (∀ v2, (ReadEntry (refBackend glob) rdb k
        (InsertEntry (refBackend glob) rdb k v2
          (runCalls (refBackend glob) rdb calls
            (InsertEntry (refBackend glob) rdb k v w).1)).1).2 = .returned (v2, none)) ∧
    (ReadEntry (refBackend glob) rdb k
        (DeleteEntry (refBackend glob) rdb k
          (runCalls (refBackend glob) rdb calls
            (InsertEntry (refBackend glob) rdb k v w).1)).1).2 =
      .returned ("", some .errNil) := by
  have husable := usable_of_insert glob rdb k v w hins
  refine ⟨?_, ?_, ?_⟩
  · rw [ReadEntry_ref glob rdb k _ husable,
      runCalls_state_ref glob rdb k husable calls _ hother,
      (InsertEntry_ref glob rdb k v w husable).2, storeGet_storeSet]
    simp
  · intro v2
    rw [ReadEntry_ref glob rdb k _ husable, (InsertEntry_ref glob rdb k v2 _ husable).2,
      storeGet_storeSet]
    simp
  · rw [ReadEntry_ref glob rdb k _ husable, (DeleteEntry_ref glob rdb k _ husable).2,
      storeGet_storeDel]
    simp

/-- C9, at the scenario of the spec: insert key1 = value1, then touch other
keys, then read key1. -/
theorem insert_then_read_witness :
    (InsertEntry (refBackend (fun _ _ => true)) (NewRedisDBWithPool ⟨"test"⟩ 0) "key1" "value1"
        (World.start [] 0)).2 = .returned none ∧
    (ReadEntry (refBackend (fun _ _ => true)) (NewRedisDBWithPool ⟨"test"⟩ 0) "key1"
        (runCalls (refBackend (fun _ _ => true)) (NewRedisDBWithPool ⟨"test"⟩ 0)
          [.insertEntry "key2" "value2", .deleteEntry "key3", .readAllMatchingEntries "*" 3]
          (InsertEntry (refBackend (fun _ _ => true)) (NewRedisDBWithPool ⟨"test"⟩ 0) "key1"
            "value1" (World.start [] 0)).1)).2 = .returned ("value1", none) :=
  ⟨rfl,
    (insert_then_read (fun _ _ => true) (NewRedisDBWithPool ⟨"test"⟩ 0) "key1" "value1"
      (World.start [] 0)
      [.insertEntry "key2" "value2", .deleteEntry "key3", .readAllMatchingEntries "*" 3]
      rfl (by decide)).1⟩

/-- C10: when the HDEL of `DeleteEntry(k)` succeeds and its reply carries
the integer `count` (as an integer or as decimal text), `DeleteEntry` returns
`count` with a nil error; over the reference store the count is 1 when `k` is
present and 0, with a nil error, when `k` is absent. -/
theorem delete_returns_count {σ : Type} (B : Backend σ) (rdb : RedisDB) (key : String)
    (w : World σ) (s1 : σ) (reply : Reply) (count : Int) (husable : rdb.usable)
    (hexec : B.exec w.state (rdb.conn.getD w.nextConn)
      ⟨"HDEL", [.str rdb.ns.String, .str key]⟩ = (s1, (reply, none)))
    (hcount : (reply = .int count ∧ -(2 ^ 63 : Int) ≤ count ∧ count < (2 ^ 63 : Int)) ∨
      (∃ text, reply = .bulk text ∧ parseInt text intSize = (count, none))) :
    (DeleteEntry B rdb key w).2 = .returned (count, none) ∧
    ∀ (glob : String → String → Bool) (ws : World Store),
      (storeGet ws.state rdb.ns.String key ≠ none →
        (DeleteEntry (refBackend glob) rdb key ws).2 = .returned (1, none)) ∧
      (storeGet ws.state rdb.ns.String key = none →
        (DeleteEntry (refBackend glob) rdb key ws).2 = .returned (0, none)) := by
  constructor
  · obtain ⟨c, w0, hc, hst, _, hout, _, _⟩ :=
      withConn_usable B rdb (fun err => ((0 : Int), some err))
        (fun c w1 =>
          ((doCmd B c ⟨"HDEL", [.str rdb.ns.String, .str key]⟩ w1).1,
            .returned (redisInt (doCmd B c ⟨"HDEL", [.str rdb.ns.String, .str key]⟩ w1).2)))
        w husable
    have hout2 : (DeleteEntry B rdb key w).2 = _ := hout
    rw [hout2]
    simp only [doCmd, hst, hc, hexec]
    rcases hcount with ⟨hr, hlo, hhi⟩ | ⟨text, hr, hparse⟩
    · subst hr
      have hboth : -(2 ^ (intSize - 1) : Int) ≤ count ∧ count < (2 ^ (intSize - 1) : Int) :=
        ⟨hlo, hhi⟩
      simp only [redisInt, hboth, and_self, if_true]
    · subst hr
      simp [redisInt, hparse]
  · intro glob ws
    have h := (DeleteEntry_ref glob rdb key ws husable).1
    constructor
    · intro hpresent
      rw [h]
      cases hg : storeGet ws.state rdb.ns.String key with
      | none => exact absurd hg hpresent
      | some x => rfl
    · intro habsent
      rw [h, habsent]
      rfl

/-- C10, at the reply of the test `TestRedisDBDeleteEntry`: the bytes "1". -/
theorem delete_returns_count_witness :
    (DeleteEntry scripted (NewRedisDBWithConn 0 ⟨"test"⟩ "addr" "pass") "inst-id"
        (World.start [(Reply.bulk "1", none)] 1)).2 = .returned (1, none) :=
  (delete_returns_count scripted (NewRedisDBWithConn 0 ⟨"test"⟩ "addr" "pass") "inst-id"
    (World.start [(Reply.bulk "1", none)] 1) [] (.bulk "1") 1 (Or.inl (by decide)) rfl
    (Or.inr ⟨"1", rfl, by decide⟩)).1

end Registry
